import Mathlib

/-!
Verification of the batch load-and-transform pipeline of the TFL-Accidents
repository (`src/dlt/load_to_postgres.py`).

The development shallowly embeds the pipeline's components:

* `sanitize_json_field` — the Record Sanitizer (lines 80-92), together with
  models of `ast.literal_eval` (a recursive-descent parser over Python
  literal syntax, `parseVal`/`literalEval`) and `json.dumps`
  (`pyDumps`).  Python literal values are modelled by the mutual
  inductive `PyVal`/`PyList`/`PyDict`; numeric literals are modelled as
  integers, Python strings as Lean strings (so lone surrogates and the
  `ensure_ascii` re-escaping of non-ASCII characters, which round-trip
  through `dumps`/`eval` unchanged for BMP text, are modelled by keeping
  non-ASCII characters literal).
* `clean_and_transform_data` — the Row Transformer (lines 129-160), over a
  `Frame` model of the pandas DataFrame chunks (association-list rows with
  integer index labels, which is what makes the `dropna`/assignment index
  alignment of line 150 observable).
* `recreate_table` — the Schema Manager (lines 48-78), over an explicit
  transaction model (`TxnConn`).
* `load_csv_in_batches` / `process_pipeline` — the Batch Loader and the
  end-to-end run (lines 192-260), with per-chunk commits, rollback on
  chunk failure, and an event trace.  Fault injection (connection up/down,
  CREATE failing) stands in for the exception sources of the Python code.
-/

namespace TflLoad

/-! ## Python literal values

Mutual inductive so that all functions below are structurally recursive and
kernel-reducible. -/

/-- Dictionary keys occurring in the literals handled by the sanitizer:
string keys and integer keys (`json.dumps` serializes integer keys as
quoted decimal strings). -/
inductive PyKey where
  | ks (s : String)
  | ki (n : Int)
deriving DecidableEq, Repr

mutual

/-- Python literal values, as produced by `ast.literal_eval` on the
`casualties`/`vehicles` fields: `None`, booleans, integers (numeric
literals modelled as integers), strings, lists, tuples and dictionaries. -/
inductive PyVal where
  | pnone
  | pbool (b : Bool)
  | pint (n : Int)
  | pstr (s : String)
  | plist (xs : PyList)
  | ptuple (xs : PyList)
  | pdict (es : PyDict)

/-- Lists of Python values (spine made explicit for structural recursion). -/
inductive PyList where
  | nil
  | cons (hd : PyVal) (tl : PyList)

/-- Python dictionaries as ordered association lists (insertion order, no
duplicate keys by construction of the parser). -/
inductive PyDict where
  | nil
  | cons (k : PyKey) (v : PyVal) (tl : PyDict)

end

deriving instance DecidableEq for PyVal
deriving instance DecidableEq for PyList
deriving instance DecidableEq for PyDict

deriving instance DecidableEq for Except

/-! ## Character-level helpers -/

/-- Whitespace characters of Python's `str.strip` / tokenizer. -/
def isPySpace (c : Char) : Bool :=
  c = ' ' || c = '\t' || c = '\n' || c = '\r' || c = '\x0b' || c = '\x0c'

/-- Drop leading whitespace. -/
def skipWs (cs : List Char) : List Char := cs.dropWhile isPySpace

/-- Decimal digit characters of a natural number, most significant first
(model of Python's decimal `repr`).  Fuel-based so that it is structurally
recursive; `natChars` supplies enough fuel. -/
def natCharsAux : Nat → Nat → List Char
  | 0, _ => []
  | fuel + 1, n =>
    if n < 10 then [Nat.digitChar n]
    else natCharsAux fuel (n / 10) ++ [Nat.digitChar (n % 10)]

/-- Decimal digit characters of a natural number. -/
def natChars (n : Nat) : List Char := natCharsAux (n + 1) n

/-- Decimal rendering of a natural number. -/
def natStr (n : Nat) : String := String.mk (natChars n)

/-- Decimal digit characters of an integer. -/
def intChars (n : Int) : List Char :=
  if n < 0 then '-' :: natChars n.natAbs else natChars n.toNat

/-- Decimal rendering of an integer (model of Python's `repr` of `int`,
as used both by `json.dumps` and by the CSV serializer). -/
def intStr (n : Int) : String := String.mk (intChars n)

/-- Does a character list *not* start with a decimal digit?  Boundary
condition under which a number token followed by this list parses
unambiguously. -/
def noDigitHead : List Char → Prop
  | [] => True
  | c :: _ => c.isDigit = false

/-- Numeric value of a most-significant-first list of digit characters. -/
def digitsVal (ds : List Char) : Nat :=
  ds.foldl (fun a c => 10 * a + (c.toNat - 48)) 0

/-- Split off the longest prefix of decimal digits. -/
def takeDigits : List Char → List Char × List Char
  | [] => ([], [])
  | c :: tl =>
    if c.isDigit then
      let p := takeDigits tl
      (c :: p.1, p.2)
    else ([], c :: tl)

/-- Lower-case hexadecimal digit character for `n < 16` (as emitted by
`json.dumps` in `\uXXXX` escapes). -/
def hexDigitChar (n : Nat) : Char :=
  if n < 10 then Char.ofNat (48 + n) else Char.ofNat (87 + n)

/-- Value of a hexadecimal digit character, if any. -/
def hexVal (c : Char) : Option Nat :=
  if c.isDigit then some (c.toNat - 48)
  else if 'a' ≤ c ∧ c ≤ 'f' then some (c.toNat - 87)
  else if 'A' ≤ c ∧ c ≤ 'F' then some (c.toNat - 55)
  else none

/-! ## Model of `json.dumps`

Default separators `", "` and `": "`, strings quoted with `"` and the
escapes `\" \\ \n \t \r \b \f`, other control characters as `\u00XX`.
Tuples are serialized as JSON arrays, integer dictionary keys as quoted
decimal strings — exactly `json.dumps`'s coercions. -/

/-- Escape one character of a JSON string (model of `json.dumps`'s string
escaping; non-ASCII characters are kept literal, see the module comment). -/
def jsonEscapeChar (c : Char) : List Char :=
  if c = '"' then ['\\', '"']
  else if c = '\\' then ['\\', '\\']
  else if c = '\n' then ['\\', 'n']
  else if c = '\t' then ['\\', 't']
  else if c = '\r' then ['\\', 'r']
  else if c = '\x08' then ['\\', 'b']
  else if c = '\x0c' then ['\\', 'f']
  else if c.toNat < 32 then
    ['\\', 'u', '0', '0', hexDigitChar (c.toNat / 16), hexDigitChar (c.toNat % 16)]
  else [c]

/-- Escape a whole string body. -/
def jsonEscape : List Char → List Char
  | [] => []
  | c :: tl => jsonEscapeChar c ++ jsonEscape tl

/-- Text serialized for a dictionary key: `json.dumps` uses the string
itself for string keys and the decimal rendering for integer keys. -/
def keyStr : PyKey → String
  | .ks s => s
  | .ki n => intStr n

mutual

/-- Characters of the `json.dumps` serialization of a value. -/
def emit : PyVal → List Char
  | .pnone => ['n', 'u', 'l', 'l']
  | .pbool true => ['t', 'r', 'u', 'e']
  | .pbool false => ['f', 'a', 'l', 's', 'e']
  | .pint n => intChars n
  | .pstr s => '"' :: (jsonEscape s.data ++ ['"'])
  | .plist xs => '[' :: (emitSeq xs ++ [']'])
  | .ptuple xs => '[' :: (emitSeq xs ++ [']'])
  | .pdict es => '\x7b' :: (emitDict es ++ ['\x7d'])

/-- Characters of a `", "`-separated element sequence. -/
def emitSeq : PyList → List Char
  | .nil => []
  | .cons x tl => emit x ++ emitSeqPre tl

/-- Continuation of an element sequence: each further element is preceded
by `", "`. -/
def emitSeqPre : PyList → List Char
  | .nil => []
  | .cons x tl => ',' :: ' ' :: (emit x ++ emitSeqPre tl)

/-- Characters of a `", "`-separated dictionary entry sequence; each entry
is quoted key, `": "`, value. -/
def emitDict : PyDict → List Char
  | .nil => []
  | .cons k v tl =>
    '"' :: (jsonEscape (keyStr k).data ++ ['"']) ++ (':' :: ' ' :: (emit v ++ emitDictPre tl))

/-- Continuation of a dictionary entry sequence. -/
def emitDictPre : PyDict → List Char
  | .nil => []
  | .cons k v tl =>
    ',' :: ' ' ::
      ('"' :: (jsonEscape (keyStr k).data ++ ['"']) ++ (':' :: ' ' :: (emit v ++ emitDictPre tl)))

end

/-- Model of `json.dumps` on the values handled by the sanitizer. -/
def pyDumps (v : PyVal) : String := String.mk (emit v)

/-! ## Model of `ast.literal_eval`

A fuel-indexed recursive-descent parser over Python literal syntax:
`None`/`True`/`False`, signed integer literals, single- or double-quoted
strings with the usual escapes, lists, tuples (including the parenthesized
expression `(x)` denoting `x` itself) and dictionaries with string or
integer keys (duplicate keys resolved like Python: first position, last
value).  Failures (the `ValueError`/`SyntaxError` of `ast.literal_eval`)
are `none`.  Floating, set, bytes and complex literals are out of scope
of the model and map to parse failure, so the fragment understates the
real parser: `ast.literal_eval` parses them, after which `json.dumps`
serializes floats but raises an uncaught `TypeError` on the
non-serializable ones (sets, bytes, complex) — an escape path of the
sanitizer that the modelled fragment does not reach (the fragment's own
uncaught escape, the line-87 `AttributeError`, it does reach). -/

/-- Decode a simple backslash escape, if it is one. -/
def decodeSimpleEsc (c : Char) : Option Char :=
  if c = '\\' then some '\\'
  else if c = '\'' then some '\''
  else if c = '"' then some '"'
  else if c = 'n' then some '\n'
  else if c = 't' then some '\t'
  else if c = 'r' then some '\r'
  else if c = 'b' then some '\x08'
  else if c = 'f' then some '\x0c'
  else if c = 'a' then some '\x07'
  else if c = 'v' then some '\x0b'
  else none

/-- Prepend a decoded character to a string-body parse result. -/
def consResult (c : Char) : Option (List Char × List Char) → Option (List Char × List Char)
  | some (s, r) => some (c :: s, r)
  | none => none

mutual

/-- Parse the body of a quoted string up to the closing quote `q`,
returning the decoded characters and the remaining input.  Raw newlines
are a syntax error; unknown escapes keep the backslash (Python's
behaviour); `\uXXXX` and `\xXX` decode hexadecimal code points (lone
surrogates are out of scope of the model and map to failure). -/
def parseStrBody (q : Char) : List Char → Option (List Char × List Char)
  | [] => none
  | c :: tl =>
    if c = q then some ([], tl)
    else if c = '\n' ∨ c = '\r' then none
    else if c = '\\' then parseEsc q tl
    else consResult c (parseStrBody q tl)

/-- Parse what follows a backslash. -/
def parseEsc (q : Char) : List Char → Option (List Char × List Char)
  | [] => none
  | e :: tl2 =>
    if e = 'u' then parseUEsc q tl2
    else if e = 'x' then parseXEsc q tl2
    else
      match decodeSimpleEsc e with
      | some c2 => consResult c2 (parseStrBody q tl2)
      | none => consResult '\\' (consResult e (parseStrBody q tl2))

/-- Parse the four hexadecimal digits of a `\uXXXX` escape. -/
def parseUEsc (q : Char) : List Char → Option (List Char × List Char)
  | h1 :: h2 :: h3 :: h4 :: tl3 =>
    match hexVal h1, hexVal h2, hexVal h3, hexVal h4 with
    | some a, some b, some c2, some d =>
      let n := ((a * 16 + b) * 16 + c2) * 16 + d
      if 55296 ≤ n ∧ n ≤ 57343 then none
      else consResult (Char.ofNat n) (parseStrBody q tl3)
    | _, _, _, _ => none
  | _ => none

/-- Parse the two hexadecimal digits of a `\xXX` escape. -/
def parseXEsc (q : Char) : List Char → Option (List Char × List Char)
  | h1 :: h2 :: tl3 =>
    match hexVal h1, hexVal h2 with
    | some a, some b => consResult (Char.ofNat (a * 16 + b)) (parseStrBody q tl3)
    | _, _ => none
  | _ => none

end

/-- Parse an unsigned decimal integer literal (Python rejects a leading
zero on a multi-digit literal). -/
def parseNat (cs : List Char) : Option (Nat × List Char) :=
  let p := takeDigits cs
  match p.1 with
  | [] => none
  | d :: ds => if d = '0' ∧ ds ≠ [] then none else some (digitsVal p.1, p.2)

/-- Membership of a key in a dictionary. -/
def dictHasKey (k : PyKey) : PyDict → Bool
  | .nil => false
  | .cons k2 _ tl => k2 = k || dictHasKey k tl

/-- Replace the value stored at `k` (first occurrence position kept). -/
def dictSetFirst (k : PyKey) (v : PyVal) : PyDict → PyDict
  | .nil => .nil
  | .cons k2 v2 tl =>
    if k2 = k then .cons k2 v tl else .cons k2 v2 (dictSetFirst k v tl)

/-- Append an entry at the end. -/
def dictAppend : PyDict → PyKey → PyVal → PyDict
  | .nil, k, v => .cons k v .nil
  | .cons k2 v2 tl, k, v => .cons k2 v2 (dictAppend tl k v)

/-- Python dictionary insertion: a repeated key keeps its first position
but takes the last value. -/
def dictInsert (es : PyDict) (k : PyKey) (v : PyVal) : PyDict :=
  if dictHasKey k es then dictSetFirst k v es else dictAppend es k v

/-- Concatenation of two dictionaries (entry lists). -/
def dictConcat : PyDict → PyDict → PyDict
  | .nil, es => es
  | .cons k v tl, es => .cons k v (dictConcat tl es)

/-- Are all keys of the first dictionary absent from the second? -/
def dictKeysFresh : PyDict → PyDict → Bool
  | .nil, _ => true
  | .cons k _ tl, acc => !dictHasKey k acc && dictKeysFresh tl acc

/-- View a parsed value as a dictionary key (strings and integers only in
the model). -/
def keyOfVal : PyVal → Option PyKey
  | .pstr s => some (.ks s)
  | .pint n => some (.ki n)
  | _ => none

mutual

/-- Parse one Python literal value.  `fuel` bounds the nesting work; the
top-level entry point `literalEval` supplies enough fuel for any input it
is called on. -/
def parseVal : Nat → List Char → Option (PyVal × List Char)
  | 0, _ => none
  | fuel + 1, cs =>
    match cs with
    | [] => none
    | 'N' :: 'o' :: 'n' :: 'e' :: r => some (.pnone, r)
    | 'T' :: 'r' :: 'u' :: 'e' :: r => some (.pbool true, r)
    | 'F' :: 'a' :: 'l' :: 's' :: 'e' :: r => some (.pbool false, r)
    | '-' :: r =>
      match parseNat (skipWs r) with
      | some (n, r2) => some (.pint (-(n : Int)), r2)
      | none => none
    | '+' :: r =>
      match parseNat (skipWs r) with
      | some (n, r2) => some (.pint (n : Int), r2)
      | none => none
    | '\'' :: r =>
      match parseStrBody '\'' r with
      | some (s, r2) => some (.pstr (String.mk s), r2)
      | none => none
    | '"' :: r =>
      match parseStrBody '"' r with
      | some (s, r2) => some (.pstr (String.mk s), r2)
      | none => none
    | '[' :: r =>
      match parseSeq ']' fuel r with
      | some (xs, r2) => some (.plist xs, r2)
      | none => none
    | '(' :: r =>
      let r1 := skipWs r
      match r1 with
      | ')' :: r2 => some (.ptuple .nil, r2)
      | _ =>
        match parseVal fuel r1 with
        | some (v, r2) =>
          let r3 := skipWs r2
          match r3 with
          | ')' :: r4 => some (v, r4)
          | ',' :: r4 =>
            match parseSeq ')' fuel r4 with
            | some (xs, r5) => some (.ptuple (.cons v xs), r5)
            | none => none
          | _ => none
        | none => none
    | '\x7b' :: r =>
      match parseDictBody fuel r with
      | some (es, r2) => some (.pdict es, r2)
      | none => none
    | c :: _ =>
      if c.isDigit then
        match parseNat cs with
        | some (n, r2) => some (.pint (n : Int), r2)
        | none => none
      else none

/-- Parse a (possibly empty) element sequence up to the closing bracket. -/
def parseSeq (close : Char) : Nat → List Char → Option (PyList × List Char)
  | 0, _ => none
  | fuel + 1, cs =>
    let cs1 := skipWs cs
    match cs1 with
    | [] => none
    | c :: tl =>
      if c = close then some (.nil, tl)
      else
        match parseVal fuel cs1 with
        | some (v, r) =>
          match parseSeqRest close fuel r with
          | some (xs, r2) => some (.cons v xs, r2)
          | none => none
        | none => none

/-- After one element: the closing bracket, or `,` followed by either the
closing bracket (trailing comma) or a further element. -/
def parseSeqRest (close : Char) : Nat → List Char → Option (PyList × List Char)
  | 0, _ => none
  | fuel + 1, cs =>
    let cs1 := skipWs cs
    match cs1 with
    | [] => none
    | c :: tl =>
      if c = close then some (.nil, tl)
      else if c = ',' then
        let cs2 := skipWs tl
        match cs2 with
        | [] => none
        | c2 :: tl2 =>
          if c2 = close then some (.nil, tl2)
          else
            match parseVal fuel (c2 :: tl2) with
            | some (v, r) =>
              match parseSeqRest close fuel r with
              | some (xs, r2) => some (.cons v xs, r2)
              | none => none
            | none => none
      else none

/-- Parse a dictionary body after the opening brace. -/
def parseDictBody : Nat → List Char → Option (PyDict × List Char)
  | 0, _ => none
  | fuel + 1, cs =>
    let cs1 := skipWs cs
    match cs1 with
    | [] => none
    | c :: tl =>
      if c = '\x7d' then some (.nil, tl)
      else
        match parseEntry fuel cs1 with
        | some (k, v, r) =>
          match parseDictRest (dictInsert .nil k v) fuel r with
          | some (es, r2) => some (es, r2)
          | none => none
        | none => none

/-- After one entry: closing brace, or `,` then closing brace or a further
entry.  `acc` holds the entries parsed so far (Python dict semantics via
`dictInsert`). -/
def parseDictRest (acc : PyDict) : Nat → List Char → Option (PyDict × List Char)
  | 0, _ => none
  | fuel + 1, cs =>
    let cs1 := skipWs cs
    match cs1 with
    | [] => none
    | c :: tl =>
      if c = '\x7d' then some (acc, tl)
      else if c = ',' then
        let cs2 := skipWs tl
        match cs2 with
        | [] => none
        | c2 :: tl2 =>
          if c2 = '\x7d' then some (acc, tl2)
          else
            match parseEntry fuel (c2 :: tl2) with
            | some (k, v, r) =>
              match parseDictRest (dictInsert acc k v) fuel r with
              | some (es, r2) => some (es, r2)
              | none => none
            | none => none
      else none

/-- Parse one `key: value` entry. -/
def parseEntry : Nat → List Char → Option (PyKey × PyVal × List Char)
  | 0, _ => none
  | fuel + 1, cs =>
    match parseVal fuel cs with
    | some (kv, r) =>
      match keyOfVal kv with
      | some k =>
        let r1 := skipWs r
        match r1 with
        | ':' :: r2 =>
          match parseVal fuel (skipWs r2) with
          | some (v, r3) => some (k, v, r3)
          | none => none
        | _ => none
      | none => none
    | none => none

end

/-- Model of `ast.literal_eval`: parse the whole (whitespace-trimmed)
input as one literal; any leftover input is a failure.  The fuel
`2 * length + 4` dominates the parser's needs on every input it can
succeed on. -/
def literalEval (s : String) : Option PyVal :=
  match parseVal (2 * s.length + 4) (skipWs s.data) with
  | some (v, rest) => if skipWs rest = [] then some v else none
  | none => none

/-! ## The Record Sanitizer (`sanitize_json_field`, lines 80-92) -/

/-- Exceptions surfacing in the embedded fragment: the `AttributeError`
raised by `item.items()` on a non-dict list element (line 87, not caught
by the `except (ValueError, SyntaxError)` of line 90), and the pandas
`KeyError` of a missing column. -/
inductive PyErr where
  | attributeError
  | keyError (k : String)
deriving DecidableEq, Repr

/-- Strip the reserved `$type` discriminator key from one dictionary
(the comprehension `{k: v for k, v in item.items() if k != "$type"}`;
an integer key is never equal to the string `"$type"`). -/
def stripTypeKey : PyDict → PyDict
  | .nil => .nil
  | .cons k v tl =>
    if k = .ks "$type" then stripTypeKey tl else .cons k v (stripTypeKey tl)

/-- Process the elements of a parsed list: every element must be a
dictionary (otherwise `item.items()` raises `AttributeError`), and each
dictionary loses its `$type` key. -/
def cleanListItems : PyList → Option PyList
  | .nil => some .nil
  | .cons (.pdict es) tl =>
    match cleanListItems tl with
    | some tl2 => some (.cons (.pdict (stripTypeKey es)) tl2)
    | none => none
  | .cons _ _ => none

/-- Model of `sanitize_json_field` (lines 80-92).  `none` input is the
`pd.isna` case; `field.strip() == ""` holds exactly when every character
is whitespace; a parse failure of `ast.literal_eval` is recovered to
`None` (with a warning); a parsed list is cleaned and re-serialized, any
other parsed value is re-serialized directly.  A parsed list containing a
non-dictionary element makes line 87 raise `AttributeError`, which the
`except` clause does not catch. -/
def sanitize_json_field : Option String → Except PyErr (Option String)
  | none => .ok none
  | some field =>
    if field.data.all isPySpace then .ok none
    else
      match literalEval field with
      | none => .ok none
      | some (.plist items) =>
        match cleanListItems items with
        | some cleaned => .ok (some (pyDumps (.plist cleaned)))
        | none => .error .attributeError
      | some v => .ok (some (pyDumps v))

/-! ## DataFrame chunks (`Frame`)

A pandas chunk as read by `pd.read_csv(..., chunksize=batch_size)`: a
column list and rows carrying an integer index label (the `RangeIndex`)
and one cell per column.  The index labels are what make the
`Series.dropna()`/column-assignment alignment of line 150 observable. -/

/-- Timestamps, as produced by `pd.to_datetime` on the ISO-8601 strings of
the source data (calendar validity is modelled by simple field bounds). -/
structure Ts where
  year : Nat
  month : Nat
  day : Nat
  hour : Nat
  minute : Nat
  second : Nat
deriving DecidableEq, Repr

/-- Cell values: missing (`NaN`/`NaT`/`None`), raw strings, numerics
(modelled as integers) and timestamps. -/
inductive Cell where
  | na
  | sv (v : String)
  | iv (v : Int)
  | tv (v : Ts)
deriving DecidableEq, Repr

/-- A DataFrame chunk. -/
structure Frame where
  cols : List String
  rows : List (Nat × List (String × Cell))
deriving DecidableEq, Repr

/-- Cell of a row at a column (missing association → `NaN`). -/
def rowGet (r : List (String × Cell)) (c : String) : Cell :=
  match r.find? (fun kv => kv.1 == c) with
  | some kv => kv.2
  | none => .na

/-- Overwrite the cell of a row at a column. -/
def rowSet (r : List (String × Cell)) (c : String) (v : Cell) : List (String × Cell) :=
  if r.any (fun kv => kv.1 == c) then
    r.map (fun kv => if kv.1 == c then (kv.1, v) else kv)
  else r ++ [(c, v)]

/-- Drop the reserved `$type` column if present
(`df.drop(columns=["$type"])`, lines 132-133). -/
def dropTypeCol (df : Frame) : Frame :=
  if "$type" ∈ df.cols then
    { cols := df.cols.filter (fun c => c ≠ "$type"),
      rows := df.rows.map (fun p => (p.1, p.2.filter (fun kv => kv.1 ≠ "$type"))) }
  else df

/-- The fixed rename table of lines 136-140 (exact match only). -/
def renameCol (c : String) : String :=
  if c = "id" then "accident_id" else if c = "date" then "accident_date" else c

/-- Rename the columns of a chunk (`df.rename(columns=...)`). -/
def renameFrame (df : Frame) : Frame :=
  { cols := df.cols.map renameCol,
    rows := df.rows.map (fun p => (p.1, p.2.map (fun kv => (renameCol kv.1, kv.2)))) }

/-- The fixed target column list of lines 143-146. -/
def expectedColumns : List String :=
  ["accident_id", "lat", "lon", "location", "accident_date",
   "severity", "borough", "casualties", "vehicles"]

/-- Project onto the expected columns that are present, in the expected
order (`df[[col for col in expected_columns if col in df.columns]]`,
line 147). -/
def projectFrame (df : Frame) : Frame :=
  let cols2 := expectedColumns.filter (fun c => c ∈ df.cols)
  { cols := cols2,
    rows := df.rows.map (fun p => (p.1, cols2.map (fun c => (c, rowGet p.2 c)))) }

/-- Read a column as a Series (`df[c]`); a missing column is the pandas
`KeyError`. -/
def getColSeries (df : Frame) (c : String) : Except PyErr (List (Nat × Cell)) :=
  if c ∈ df.cols then .ok (df.rows.map (fun p => (p.1, rowGet p.2 c)))
  else .error (.keyError c)

/-- Value of a Series at an index label. -/
def seriesLookup (s : List (Nat × Cell)) (i : Nat) : Option Cell :=
  match s.find? (fun p => p.1 == i) with
  | some p => some p.2
  | none => none

/-- Column assignment `df[c] = series`: pandas aligns the Series on the
row index — a label missing from the Series becomes `NaN`.  This is what
re-introduces null `accident_id`s after `dropna()` on line 150. -/
def setColSeries (df : Frame) (c : String) (s : List (Nat × Cell)) : Frame :=
  { cols := if c ∈ df.cols then df.cols else df.cols ++ [c],
    rows := df.rows.map (fun p => (p.1, rowSet p.2 c ((seriesLookup s p.1).getD .na))) }

/-- Strip leading and trailing Python whitespace from a character list. -/
def trimChars (cs : List Char) : List Char :=
  ((cs.dropWhile isPySpace).reverse.dropWhile isPySpace).reverse

/-- Parse a (whitespace-trimmed, optionally signed) decimal integer the
way `pd.to_numeric` accepts it; non-integer numeric formats are out of
scope of the model. -/
def parseIntString (s : String) : Option Int :=
  let cs := trimChars s.data
  match cs with
  | '-' :: ds => if ds ≠ [] ∧ ds.all (fun c => c.isDigit) then some (-(digitsVal ds : Int)) else none
  | '+' :: ds => if ds ≠ [] ∧ ds.all (fun c => c.isDigit) then some ((digitsVal ds : Int)) else none
  | ds => if ds ≠ [] ∧ ds.all (fun c => c.isDigit) then some ((digitsVal ds : Int)) else none

/-- Coerce one cell the way `pd.to_numeric(..., errors="coerce")` does:
parse failures become `NaN`. -/
def toNumericCell : Cell → Cell
  | .na => .na
  | .sv s => match parseIntString s with
    | some n => .iv n
    | none => .na
  | .iv n => .iv n
  | .tv _ => .na

/-- Drop the `NaN` entries of a Series (`Series.dropna()`). -/
def dropnaSeries (s : List (Nat × Cell)) : List (Nat × Cell) :=
  s.filter (fun p => p.2 ≠ Cell.na)

/-- Cast a (NaN-free numeric) Series to integers (`astype(int)`); on the
integer-modelled cells this is the identity. -/
def astypeIntSeries (s : List (Nat × Cell)) : List (Nat × Cell) := s

/-- Two decimal digit characters. -/
def twoDigits (a b : Char) : Option Nat :=
  if a.isDigit ∧ b.isDigit then some ((a.toNat - 48) * 10 + (b.toNat - 48)) else none

/-- Parse the ISO-8601 timestamps of the source data
(`YYYY-MM-DD[THH:MM:SS[Z]]`), with simple range checks standing in for
calendar validity; anything else is a parse failure. -/
def parseIsoDate (s : String) : Option Ts :=
  match s.data with
  | [a, b, c, d, '-', e, f, '-', g, h] =>
    match twoDigits a b, twoDigits c d, twoDigits e f, twoDigits g h with
    | some y1, some y2, some mo, some dy =>
      if 1 ≤ mo ∧ mo ≤ 12 ∧ 1 ≤ dy ∧ dy ≤ 31 then
        some ⟨y1 * 100 + y2, mo, dy, 0, 0, 0⟩
      else none
    | _, _, _, _ => none
  | [a, b, c, d, '-', e, f, '-', g, h, 'T', i, j, ':', k, l, ':', m, n] =>
    match twoDigits a b, twoDigits c d, twoDigits e f, twoDigits g h,
        twoDigits i j, twoDigits k l, twoDigits m n with
    | some y1, some y2, some mo, some dy, some hh, some mi, some ss =>
      if 1 ≤ mo ∧ mo ≤ 12 ∧ 1 ≤ dy ∧ dy ≤ 31 ∧ hh ≤ 23 ∧ mi ≤ 59 ∧ ss ≤ 59 then
        some ⟨y1 * 100 + y2, mo, dy, hh, mi, ss⟩
      else none
    | _, _, _, _, _, _, _ => none
  | [a, b, c, d, '-', e, f, '-', g, h, 'T', i, j, ':', k, l, ':', m, n, 'Z'] =>
    match twoDigits a b, twoDigits c d, twoDigits e f, twoDigits g h,
        twoDigits i j, twoDigits k l, twoDigits m n with
    | some y1, some y2, some mo, some dy, some hh, some mi, some ss =>
      if 1 ≤ mo ∧ mo ≤ 12 ∧ 1 ≤ dy ∧ dy ≤ 31 ∧ hh ≤ 23 ∧ mi ≤ 59 ∧ ss ≤ 59 then
        some ⟨y1 * 100 + y2, mo, dy, hh, mi, ss⟩
      else none
    | _, _, _, _, _, _, _ => none
  | _ => none

/-- Coerce one cell the way `pd.to_datetime(..., errors="coerce")` does:
parse failures become `NaT` and never raise. -/
def toDatetimeCell : Cell → Cell
  | .sv s => match parseIsoDate s with
    | some ts => .tv ts
    | none => .na
  | _ => .na

/-- The `accident_id` coercion of line 150:
`df["accident_id"] = pd.to_numeric(df["accident_id"], errors="coerce").dropna().astype(int)`. -/
def idCoerceStep (df : Frame) : Except PyErr Frame :=
  match getColSeries df "accident_id" with
  | .error e => .error e
  | .ok s =>
    .ok (setColSeries df "accident_id"
      (astypeIntSeries (dropnaSeries (s.map (fun p => (p.1, toNumericCell p.2))))))

/-- The `accident_date` coercion of line 153:
`df["accident_date"] = pd.to_datetime(df["accident_date"], errors="coerce")`. -/
def dateCoerceStep (df : Frame) : Except PyErr Frame :=
  match getColSeries df "accident_date" with
  | .error e => .error e
  | .ok s => .ok (setColSeries df "accident_date" (s.map (fun p => (p.1, toDatetimeCell p.2))))

/-- Apply the sanitizer to one cell (`Series.apply(sanitize_json_field)`):
`NaN` cells hit the `pd.isna` branch, string cells are sanitized, and a
non-string cell would fail at `field.strip()` with `AttributeError`. -/
def sanitizeCell : Cell → Except PyErr Cell
  | .na =>
    match sanitize_json_field none with
    | .ok none => .ok .na
    | .ok (some s) => .ok (.sv s)
    | .error e => .error e
  | .sv v =>
    match sanitize_json_field (some v) with
    | .ok none => .ok .na
    | .ok (some s) => .ok (.sv s)
    | .error e => .error e
  | .iv _ => .error .attributeError
  | .tv _ => .error .attributeError

/-- Apply `sanitizeCell` along a Series, propagating the first raised
exception (as `Series.apply` does). -/
def sanitizeSeries : List (Nat × Cell) → Except PyErr (List (Nat × Cell))
  | [] => .ok []
  | p :: tl =>
    match sanitizeCell p.2 with
    | .ok c =>
      match sanitizeSeries tl with
      | .ok tl2 => .ok ((p.1, c) :: tl2)
      | .error e => .error e
    | .error e => .error e

/-- Sanitize one of the JSON-like columns if present (lines 156-158). -/
def sanitizeColumn (df : Frame) (c : String) : Except PyErr Frame :=
  if c ∈ df.cols then
    match getColSeries df c with
    | .error e => .error e
    | .ok s =>
      match sanitizeSeries s with
      | .error e => .error e
      | .ok s2 => .ok (setColSeries df c s2)
  else .ok df

/-- Model of `clean_and_transform_data` (lines 129-160): drop `$type`,
rename, project, coerce `accident_id`, coerce `accident_date`, sanitize
`casualties` and `vehicles`. -/
def clean_and_transform_data (df : Frame) : Except PyErr Frame :=
  match idCoerceStep (projectFrame (renameFrame (dropTypeCol df))) with
  | .error e => .error e
  | .ok df4 =>
    match dateCoerceStep df4 with
    | .error e => .error e
    | .ok df5 =>
      match sanitizeColumn df5 "casualties" with
      | .error e => .error e
      | .ok df6 => sanitizeColumn df6 "vehicles"

/-! ## CSV serialization and the COPY statement (lines 208-219) -/

/-- Render one cell for `chunk.to_csv(index=False, header=False,
sep='\t')`.  The pandas default `na_rep` is the EMPTY string: a null cell
serializes as `""`, not as the `NULL` sentinel the COPY statement
declares. -/
def renderCell : Cell → String
  | .na => ""
  | .sv s =>
    if s.data.any (fun c => c = '\t' ∨ c = '"' ∨ c = '\n' ∨ c = '\r') then
      "\"" ++ String.mk (s.data.flatMap (fun c => if c = '"' then ['"', '"'] else [c])) ++ "\""
    else s
  | .iv n => intStr n
  | .tv ts =>
    natStr ts.year ++ "-" ++
      (if ts.month < 10 then "0" else "") ++ natStr ts.month ++ "-" ++
      (if ts.day < 10 then "0" else "") ++ natStr ts.day ++ " " ++
      (if ts.hour < 10 then "0" else "") ++ natStr ts.hour ++ ":" ++
      (if ts.minute < 10 then "0" else "") ++ natStr ts.minute ++ ":" ++
      (if ts.second < 10 then "0" else "") ++ natStr ts.second

/-- One tab-delimited CSV line of a transformed chunk. -/
def toCsvLine (cols : List String) (r : List (String × Cell)) : String :=
  String.intercalate "\t" (cols.map (fun c => renderCell (rowGet r c)))

/-- The lines written into the COPY buffer for one chunk. -/
def toCsvLines (df : Frame) : List String :=
  df.rows.map (fun p => toCsvLine df.cols p.2)

/-- The explicit column list of the COPY statement (lines 214-216). -/
def copyColumnList : List String :=
  ["accident_id", "lat", "lon", "location", "accident_date",
   "severity", "borough", "casualties", "vehicles"]

/-- The null sentinel the COPY statement declares (`NULL 'NULL'`). -/
def copyNullSentinel : String := "NULL"

/-- The column names of the table created by `recreate_table`
(lines 56-68), in declaration order — the canonical schema order. -/
def tableColumnNames : List String :=
  ["accident_id", "lat", "lon", "location", "accident_date",
   "severity", "borough", "casualties", "vehicles"]

/-! ## Server side of COPY

`cur.copy_expert` streams the buffer to PostgreSQL, which parses each
line as a CSV record (`WITH CSV DELIMITER E'\t' NULL 'NULL' QUOTE '"'`,
line 216) and converts each field to the declared column type of the
table created on lines 56-67 (`INTEGER PRIMARY KEY, FLOAT, FLOAT, TEXT,
TIMESTAMP, TEXT, TEXT, JSONB, JSONB`).  Any of the following raises on
the server and surfaces as an exception of `copy_expert`: a record with
more or fewer fields than the 9-column list of the COPY statement, a
field text the column type rejects (in particular the empty string for
the non-text types), a `NULL` in the `NOT NULL` primary-key column, and
a duplicate primary-key value.  An unquoted field equal to the declared
sentinel `NULL` is null; a quoted `"NULL"` is the three-letter string. -/

/-- Body of a double-quoted CSV field after the opening quote: `""` is an
escaped quote; returns the content and the rest after the closing quote,
`none` if the quote is unterminated. -/
def csvQuoted : List Char → Option (List Char × List Char)
  | [] => none
  | '"' :: '"' :: tl =>
    match csvQuoted tl with
    | some (cs, r) => some ('"' :: cs, r)
    | none => none
  | '"' :: tl => some ([], tl)
  | c :: tl =>
    match csvQuoted tl with
    | some (cs, r) => some (c :: cs, r)
    | none => none

/-- An unquoted CSV field: content up to the next tab delimiter. -/
def csvUnquoted : List Char → List Char × List Char
  | [] => ([], [])
  | '\t' :: tl => ([], '\t' :: tl)
  | c :: tl =>
    let p := csvUnquoted tl
    (c :: p.1, p.2)

/-- Split one line into CSV fields (tab delimiter, `"` quote), each with
a flag recording whether it was quoted (the null sentinel only matches
unquoted fields).  Fuel-based; one unit per field suffices. -/
def csvFieldsAux : Nat → List Char → Option (List (String × Bool))
  | 0, _ => none
  | fuel + 1, cs =>
    match cs with
    | '"' :: tl =>
      match csvQuoted tl with
      | none => none
      | some (content, rest) =>
        match rest with
        | [] => some [(String.mk content, true)]
        | '\t' :: tl2 =>
          match csvFieldsAux fuel tl2 with
          | some fs => some ((String.mk content, true) :: fs)
          | none => none
        | _ => none
    | _ =>
      let p := csvUnquoted cs
      match p.2 with
      | '\t' :: tl2 =>
        match csvFieldsAux fuel tl2 with
        | some fs => some ((String.mk p.1, false) :: fs)
        | none => none
      | _ => some [(String.mk p.1, false)]

/-- CSV fields of one record line. -/
def csvFields (cs : List Char) : Option (List (String × Bool)) :=
  csvFieldsAux (cs.length + 1) cs

/-- Is a field the declared null (`NULL 'NULL'`, matching unquoted fields
only)? -/
def pgNull (f : String × Bool) : Bool := !f.2 && f.1 == copyNullSentinel

/-- A nonempty all-digit character run. -/
def allDigits1 (cs : List Char) : Bool := !cs.isEmpty && cs.all (fun c => c.isDigit)

/-- Exponent tail of a float text: empty, or `e`/`E` with optionally
signed digits. -/
def floatExpOk : List Char → Bool
  | [] => true
  | 'e' :: '+' :: tl => allDigits1 tl
  | 'e' :: '-' :: tl => allDigits1 tl
  | 'e' :: tl => allDigits1 tl
  | 'E' :: '+' :: tl => allDigits1 tl
  | 'E' :: '-' :: tl => allDigits1 tl
  | 'E' :: tl => allDigits1 tl
  | _ => false

/-- Unsigned float mantissa with optional fraction, then the exponent
tail: `digits [. digits]`, `digits .` or `. digits`. -/
def floatMantissaOk (cs : List Char) : Bool :=
  let p := cs.span (fun c => c.isDigit)
  match p.2 with
  | '.' :: tl =>
    let q := tl.span (fun c => c.isDigit)
    (!p.1.isEmpty || !q.1.isEmpty) && floatExpOk q.2
  | rest => !p.1.isEmpty && floatExpOk rest

/-- PostgreSQL `FLOAT` text input (model: trimmed, optionally signed
finite decimal forms; the `NaN`/`Infinity` spellings are out of scope —
the pipeline never emits them).  The empty string is rejected. -/
def pgFloatTextOk (s : String) : Bool :=
  match trimChars s.data with
  | '+' :: tl => floatMantissaOk tl
  | '-' :: tl => floatMantissaOk tl
  | cs => floatMantissaOk cs

/-- An ISO timestamp with a blank date/time separator, the form
`renderCell` emits for timestamp cells and PostgreSQL accepts. -/
def parseSpaceTimestamp (s : String) : Option Ts :=
  match s.data with
  | [a, b, c, d, '-', e, f, '-', g, h, ' ', i, j, ':', k, l, ':', m, n] =>
    match twoDigits a b, twoDigits c d, twoDigits e f, twoDigits g h,
        twoDigits i j, twoDigits k l, twoDigits m n with
    | some y1, some y2, some mo, some dy, some hh, some mi, some ss =>
      if 1 ≤ mo ∧ mo ≤ 12 ∧ 1 ≤ dy ∧ dy ≤ 31 ∧ hh ≤ 23 ∧ mi ≤ 59 ∧ ss ≤ 59 then
        some ⟨y1 * 100 + y2, mo, dy, hh, mi, ss⟩
      else none
    | _, _, _, _, _, _, _ => none
  | _ => none

/-- PostgreSQL `TIMESTAMP` text input (model: the ISO forms the pipeline
produces — date only, `T`-separated, `Z`-suffixed or blank-separated).
The empty string is rejected. -/
def pgTimestampTextOk (s : String) : Bool :=
  (parseIsoDate s).isSome || (parseSpaceTimestamp s).isSome

/-- Body of a JSON string after the opening quote (RFC 8259 escapes,
no raw control characters); returns the rest after the closing quote. -/
def jsonStr : List Char → Option (List Char)
  | [] => none
  | '"' :: tl => some tl
  | '\\' :: e :: tl =>
    if e = '"' ∨ e = '\\' ∨ e = '/' ∨ e = 'b' ∨ e = 'f' ∨ e = 'n' ∨ e = 'r' ∨ e = 't' then
      jsonStr tl
    else if e = 'u' then
      match tl with
      | a :: b :: c :: d :: tl2 =>
        if (hexVal a).isSome ∧ (hexVal b).isSome ∧ (hexVal c).isSome ∧ (hexVal d).isSome then
          jsonStr tl2
        else none
      | _ => none
    else none
  | c :: tl => if c.toNat < 32 then none else jsonStr tl

/-- Integer part of a JSON number: `0` alone or a nonzero digit followed
by digits. -/
def jsonIntPart : List Char → Option (List Char)
  | '0' :: tl => some tl
  | c :: tl =>
    if c.isDigit ∧ c ≠ '0' then some (tl.dropWhile (fun d => d.isDigit)) else none
  | [] => none

/-- Optional fraction of a JSON number: `.` requires at least one digit. -/
def jsonFracPart : List Char → Option (List Char)
  | '.' :: tl =>
    let q := tl.span (fun c => c.isDigit)
    if q.1.isEmpty then none else some q.2
  | cs => some cs

/-- Digits of a JSON exponent after the marker, optionally signed. -/
def jsonExpDigits (cs : List Char) : Option (List Char) :=
  let body := fun (tl : List Char) =>
    let q := tl.span (fun c => c.isDigit)
    if q.1.isEmpty then none else some q.2
  match cs with
  | '+' :: tl => body tl
  | '-' :: tl => body tl
  | tl => body tl

/-- Optional exponent of a JSON number. -/
def jsonExpPart : List Char → Option (List Char)
  | 'e' :: tl => jsonExpDigits tl
  | 'E' :: tl => jsonExpDigits tl
  | cs => some cs

/-- One unsigned JSON number starting at the head. -/
def jsonNum (cs : List Char) : Option (List Char) :=
  match jsonIntPart cs with
  | none => none
  | some r1 =>
    match jsonFracPart r1 with
    | none => none
    | some r2 => jsonExpPart r2

mutual

/-- Recognize one JSON value (fuel-indexed), returning the rest of the
input. -/
def jsonVal : Nat → List Char → Option (List Char)
  | 0, _ => none
  | fuel + 1, cs =>
    match skipWs cs with
    | 'n' :: 'u' :: 'l' :: 'l' :: tl => some tl
    | 't' :: 'r' :: 'u' :: 'e' :: tl => some tl
    | 'f' :: 'a' :: 'l' :: 's' :: 'e' :: tl => some tl
    | '"' :: tl => jsonStr tl
    | '[' :: tl =>
      (match skipWs tl with
       | ']' :: tl2 => some tl2
       | cs2 => jsonElems fuel cs2)
    | '\x7b' :: tl =>
      (match skipWs tl with
       | '\x7d' :: tl2 => some tl2
       | cs2 => jsonMembers fuel cs2)
    | '-' :: tl => jsonNum tl
    | c :: tl => if c.isDigit then jsonNum (c :: tl) else none
    | [] => none

/-- Recognize the elements of a nonempty JSON array up to `]`. -/
def jsonElems : Nat → List Char → Option (List Char)
  | 0, _ => none
  | fuel + 1, cs =>
    match jsonVal fuel cs with
    | none => none
    | some rest =>
      match skipWs rest with
      | ',' :: tl => jsonElems fuel tl
      | ']' :: tl => some tl
      | _ => none

/-- Recognize the members of a nonempty JSON object up to the closing
brace. -/
def jsonMembers : Nat → List Char → Option (List Char)
  | 0, _ => none
  | fuel + 1, cs =>
    match skipWs cs with
    | '"' :: tl =>
      (match jsonStr tl with
       | none => none
       | some rest =>
         match skipWs rest with
         | ':' :: tl2 =>
           (match jsonVal fuel tl2 with
            | none => none
            | some rest2 =>
              match skipWs rest2 with
              | ',' :: tl3 => jsonMembers fuel tl3
              | '\x7d' :: tl3 => some tl3
              | _ => none)
         | _ => none)
    | _ => none

end

/-- PostgreSQL `JSONB` text input: the text must be one JSON value with
nothing but whitespace around it.  The empty string is rejected. -/
def pgJsonbTextOk (s : String) : Bool :=
  match jsonVal (2 * s.length + 4) s.data with
  | some rest => (skipWs rest).isEmpty
  | none => false

/-- One parsed record against the schema of lines 56-67: exactly the 9
columns of the COPY list, the primary-key `INTEGER` neither null nor
unparseable (`parseIntString` is also the trimmed signed-decimal shape
PostgreSQL's integer input accepts), and every other non-null field
acceptable to its column type — the three `TEXT` columns (`location`,
`severity`, `borough`) accept any field. -/
def recordOk (fs : List (String × Bool)) : Bool :=
  match fs with
  | [fid, flat, flon, _floc, fdat, _fsev, _fbor, fcas, fveh] =>
    (!pgNull fid && (parseIntString fid.1).isSome) &&
    (pgNull flat || pgFloatTextOk flat.1) &&
    (pgNull flon || pgFloatTextOk flon.1) &&
    (pgNull fdat || pgTimestampTextOk fdat.1) &&
    (pgNull fcas || pgJsonbTextOk fcas.1) &&
    (pgNull fveh || pgJsonbTextOk fveh.1)
  | _ => false

/-- The primary-key value carried by a wire line, if any. -/
def lineIdVal (line : String) : Option Int :=
  match csvFields line.data with
  | some (f :: _) => if pgNull f then none else parseIntString f.1
  | _ => none

/-- Are the new primary-key values pairwise distinct and absent from the
existing ones? -/
def allFresh : List Int → List Int → Bool
  | [], _ => true
  | i :: tl, old => !tl.contains i && !old.contains i && allFresh tl old

/-! ## Schema Manager (`recreate_table`, lines 48-78)

The DROP and CREATE are executed on one cursor and committed by a single
`conn.commit()`; an exception skips the commit and `conn.close()` in the
`finally` block discards the open transaction.  Fault injection booleans
stand in for the exception sources (connection refused, statement
failure). -/

/-- The destination table: schema (column names) and committed rows
(rows stored in wire format, i.e. the tab-delimited lines streamed by
COPY). -/
structure Table where
  schemaCols : List String
  rows : List String
deriving DecidableEq, Repr

/-- The freshly created empty staging table. -/
def freshTable : Table := { schemaCols := tableColumnNames, rows := [] }

/-- A connection with an open transaction: the committed database state
and the pending (in-transaction) view. -/
structure TxnConn where
  committed : Option Table
  pending : Option Table
deriving DecidableEq, Repr

/-- Execute `DROP TABLE IF EXISTS` inside the transaction. -/
def execDrop (c : TxnConn) : TxnConn := { c with pending := none }

/-- Execute `CREATE TABLE` inside the transaction. -/
def execCreate (c : TxnConn) : TxnConn := { c with pending := some freshTable }

/-- Execute `conn.commit()`. -/
def txnCommit (c : TxnConn) : TxnConn := { c with committed := c.pending }

/-- Execute `conn.close()`: an uncommitted transaction is discarded. -/
def connClose (c : TxnConn) : Option Table := c.committed

/-- Model of `recreate_table` (lines 48-78).  `connOk` is whether
`connect_db` succeeds (it returns `None` on failure and the function
returns early); `dropOk`/`createOk` inject statement failures, which jump
to the `except` clause (log only) and then the `finally` close. -/
def recreate_table (connOk dropOk createOk : Bool) (db : Option Table) : Option Table :=
  if ¬connOk then db
  else
    let c0 : TxnConn := { committed := db, pending := db }
    if ¬dropOk then connClose c0
    else
      let c1 := execDrop c0
      if ¬createOk then connClose c1
      else connClose (txnCommit (execCreate c1))

/-! ## Batch Loader (`load_csv_in_batches`, lines 192-231) and the
pipeline (`process_pipeline`, lines 233-260) -/

/-- Transform one chunk and serialize it for the COPY buffer. -/
def processChunk (chunk : Frame) : Except PyErr (List String) :=
  match clean_and_transform_data chunk with
  | .ok df => .ok (toCsvLines df)
  | .error e => .error e

/-- The server's handling of one chunk's COPY: every line must parse
into a valid 9-field record and the new primary-key values must be fresh
(pairwise and against the committed rows); then the rows are appended,
otherwise the COPY raises and `none` is returned. -/
def copyChunk (t : Table) (lines : List String) : Option Table :=
  if lines.all (fun l =>
       match csvFields l.data with
       | some fs => recordOk fs
       | none => false) &&
     allFresh (lines.filterMap lineIdVal) (t.rows.filterMap lineIdVal) then
    some { t with rows := t.rows ++ lines }
  else none

/-- The per-chunk loop of lines 202-223: each chunk is transformed,
COPY-ed and committed by its own `conn.commit()`; the first exception —
a transform error, a COPY against a missing table, or a server-side COPY
error (`copyChunk`) — reaches the `except` clause, which rolls back the
open transaction; previously committed chunks stand and the function
returns normally with the load failed. -/
def loadChunksLoop : Option Table → List Frame → Option Table × Bool
  | db, [] => (db, true)
  | db, chunk :: rest =>
    match processChunk chunk with
    | .error _ => (db, false)
    | .ok lines =>
      match db with
      | none => (none, false)
      | some t =>
        match copyChunk t lines with
        | none => (some t, false)
        | some t2 => loadChunksLoop (some t2) rest

/-- Transform, COPY-validate and commit every chunk in order — the
all-good path of the loop; `none` as soon as any chunk raises. -/
def copyFoldOk : Table → List Frame → Option Table
  | t, [] => some t
  | t, c :: cs =>
    match processChunk c with
    | .error _ => none
    | .ok lines =>
      match copyChunk t lines with
      | none => none
      | some t2 => copyFoldOk t2 cs

/-- Does processing a chunk against committed table `t` raise — either
in the transform or server-side in the COPY? -/
def chunkFails (t : Table) (c : Frame) : Bool :=
  match processChunk c with
  | .error _ => true
  | .ok lines => (copyChunk t lines).isNone

/-- Model of `load_csv_in_batches`: a failed `connect_db` returns early;
otherwise run the chunk loop.  The Bool is whether the file loaded
completely. -/
def load_csv_in_batches (connOk : Bool) (db : Option Table) (chunks : List Frame) :
    Option Table × Bool :=
  if ¬connOk then (db, false) else loadChunksLoop db chunks

/-- Observable events of a pipeline run. -/
inductive Event where
  | resetOk
  | resetFailed
  | extractFailed (f : String)
  | loadStarted (f : String)
  | loadOk (f : String)
  | loadFailed (f : String)
deriving DecidableEq, Repr

/-- One compressed source file: its name, whether gzip extraction
succeeds, and its chunks as read by `pd.read_csv(..., chunksize=...)`. -/
structure SourceFile where
  name : String
  extractOk : Bool
  chunks : List Frame
deriving DecidableEq, Repr

/-- Fault injection for a run: whether `connect_db` succeeds inside
`recreate_table`, whether the CREATE statement succeeds, and whether
`connect_db` succeeds inside `load_csv_in_batches`. -/
structure PipeFault where
  resetConnOk : Bool
  createOk : Bool
  loadConnOk : Bool
deriving DecidableEq, Repr

/-- Per-file phase of the `process_pipeline` loop (lines 244-260):
extraction failure logs and continues (`continue`); otherwise the CSV is
loaded in batches. -/
def loadFilePhase (fault : PipeFault) (db : Option Table) (f : SourceFile) :
    Option Table × List Event :=
  if ¬f.extractOk then (db, [.extractFailed f.name])
  else
    let r := load_csv_in_batches fault.loadConnOk db f.chunks
    (r.1, [.loadStarted f.name, if r.2 then .loadOk f.name else .loadFailed f.name])

/-- Fold the per-file phase over all listed files; no file aborts the
loop. -/
def pipeFold (fault : PipeFault) : Option Table → List SourceFile → Option Table × List Event
  | db, [] => (db, [])
  | db, f :: fs =>
    let r1 := loadFilePhase fault db f
    let r2 := pipeFold fault r1.1 fs
    (r2.1, r1.2 ++ r2.2)

/-- Result of a pipeline run: the database, the event trace, and the
compressed source files still on disk afterwards. -/
structure PipeResult where
  db : Option Table
  events : List Event
  fsFiles : List String
deriving DecidableEq, Repr

/-- Model of `process_pipeline` (lines 233-260): recreate the table
(failures are logged inside `recreate_table` and the run continues), then
extract and load every listed file.  No statement of the function deletes
a source file, so the files on disk after the run are exactly the files
listed before it. -/
def process_pipeline (fault : PipeFault) (db : Option Table) (files : List SourceFile) :
    PipeResult :=
  let db1 := recreate_table fault.resetConnOk true fault.createOk db
  let ev0 := if fault.resetConnOk ∧ fault.createOk then [Event.resetOk] else [Event.resetFailed]
  let r := pipeFold fault db1 files
  { db := r.1, events := ev0 ++ r.2, fsFiles := files.map (fun f => f.name) }

/-! ## Auxiliary notions used in the statements -/

/-- Does a parsed list contain an element that is not a dictionary?  This
is exactly the condition under which line 87's `item.items()` raises. -/
def pyListHasNonDict : PyList → Bool
  | .nil => false
  | .cons (.pdict _) tl => pyListHasNonDict tl
  | .cons _ _ => true

mutual

/-- Does a value mention `None` or a boolean outside of strings?
`json.dumps` renders these as `null`/`true`/`false`, which are not Python
literals, so re-parsing the dump of such a value fails. -/
def mentionsBoolNone : PyVal → Bool
  | .pnone => true
  | .pbool _ => true
  | .pint _ => false
  | .pstr _ => false
  | .plist xs => mentionsBoolNoneList xs
  | .ptuple xs => mentionsBoolNoneList xs
  | .pdict es => mentionsBoolNoneDict es

/-- List version of `mentionsBoolNone`. -/
def mentionsBoolNoneList : PyList → Bool
  | .nil => false
  | .cons x tl => mentionsBoolNone x || mentionsBoolNoneList tl

/-- Dictionary version of `mentionsBoolNone` (keys are serialized as
quoted strings, so only the values matter). -/
def mentionsBoolNoneDict : PyDict → Bool
  | .nil => false
  | .cons _ v tl => mentionsBoolNone v || mentionsBoolNoneDict tl

end

/-- Dictionary key after a `dumps`/`literal_eval` round trip: every key
comes back as a string. -/
def jsonifyKey : PyKey → PyKey
  | .ks s => .ks s
  | .ki n => .ks (intStr n)

mutual

/-- Value after a `dumps`/`literal_eval` round trip (on values whose dump
re-parses): tuples come back as lists, integer dictionary keys as string
keys, duplicate keys collapse Python-style. -/
def jsonify : PyVal → PyVal
  | .pnone => .pnone
  | .pbool b => .pbool b
  | .pint n => .pint n
  | .pstr s => .pstr s
  | .plist xs => .plist (jsonifyList xs)
  | .ptuple xs => .plist (jsonifyList xs)
  | .pdict es => .pdict (jsonifyDict .nil es)

/-- List version of `jsonify`. -/
def jsonifyList : PyList → PyList
  | .nil => .nil
  | .cons x tl => .cons (jsonify x) (jsonifyList tl)

/-- Dictionary version of `jsonify`, folding `dictInsert` over the
entries as the parser does. -/
def jsonifyDict (acc : PyDict) : PyDict → PyDict
  | .nil => acc
  | .cons k v tl => jsonifyDict (dictInsert acc (jsonifyKey k) (jsonify v)) tl

end

mutual

/-- Values in the image of a `dumps`/`literal_eval` round trip: no
`None`/booleans/tuples, and dictionaries with string keys and no
duplicate keys.  On such values `jsonify` is the identity. -/
def jlike : PyVal → Bool
  | .pnone => false
  | .pbool _ => false
  | .pint _ => true
  | .pstr _ => true
  | .plist xs => jlikeList xs
  | .ptuple _ => false
  | .pdict es => jlikeDict es

/-- List version of `jlike`. -/
def jlikeList : PyList → Bool
  | .nil => true
  | .cons x tl => jlike x && jlikeList tl

/-- Dictionary version of `jlike`. -/
def jlikeDict : PyDict → Bool
  | .nil => true
  | .cons k v tl =>
    (match k with
      | .ks _ => true
      | .ki _ => false) && !dictHasKey k tl && jlike v && jlikeDict tl

end

mutual

/-- Fuel needed by `parseVal` on the dump of a value. -/
def bnd : PyVal → Nat
  | .pnone => 1
  | .pbool _ => 1
  | .pint _ => 1
  | .pstr _ => 1
  | .plist xs => 1 + bndSeq xs
  | .ptuple xs => 1 + bndSeq xs
  | .pdict es => 1 + bndDict es

/-- Fuel needed by `parseSeq` on the dump of an element sequence. -/
def bndSeq : PyList → Nat
  | .nil => 1
  | .cons x tl => 1 + max (bnd x) (bndSeqPre tl)

/-- Fuel needed by `parseSeqRest` on the dump of a sequence
continuation. -/
def bndSeqPre : PyList → Nat
  | .nil => 1
  | .cons x tl => 1 + max (bnd x) (bndSeqPre tl)

/-- Fuel needed by `parseDictBody` on the dump of a dictionary body (the
key itself is a quoted string, parsed with one unit of fuel, which
`bnd v ≥ 1` already covers). -/
def bndDict : PyDict → Nat
  | .nil => 1
  | .cons _ v tl => 2 + max (bnd v) (bndDictPre tl)

/-- Fuel needed by `parseDictRest` on the dump of a dictionary
continuation. -/
def bndDictPre : PyDict → Nat
  | .nil => 1
  | .cons _ v tl => 2 + max (bnd v) (bndDictPre tl)

end

/-- Is an event a load attempt? -/
def isLoadStart : Event → Bool
  | .loadStarted _ => true
  | _ => false

/-- Wire lines of a chunk that transforms successfully (empty for a
failing chunk; used only to state what the successful prefix commits). -/
def okLines (c : Frame) : List String :=
  match processChunk c with
  | .ok lines => lines
  | .error _ => []

/-! ## Concrete inputs used by the closed theorems and witnesses -/

/-- A chunk (pre-rename column names) whose first row has a non-numeric
`id` and whose second row has a valid one. -/
def c1Chunk : Frame :=
  { cols := ["id", "date"],
    rows := [(0, [("id", .sv "abc"), ("date", .sv "2019-09-01T12:00:00Z")]),
             (1, [("id", .sv "42"), ("date", .sv "2019-09-01T12:00:00Z")])] }

/-- The transform of `c1Chunk`: both rows survive, the failing one with a
null `accident_id`. -/
def c1Expected : Frame :=
  { cols := ["accident_id", "accident_date"],
    rows := [(0, [("accident_id", .na), ("accident_date", .tv ⟨2019, 9, 1, 12, 0, 0⟩)]),
             (1, [("accident_id", .iv 42), ("accident_date", .tv ⟨2019, 9, 1, 12, 0, 0⟩)])] }

/-- A fully loadable chunk: all nine schema columns (pre-rename names),
a valid id and date, and sanitizable JSON-like fields — its transform
succeeds and its wire line passes the server's COPY validation. -/
def cFullChunk : Frame :=
  { cols := ["id", "lat", "lon", "location", "date",
             "severity", "borough", "casualties", "vehicles"],
    rows := [(0, [("id", .sv "7"), ("lat", .sv "51.5"), ("lon", .sv "-0.1"),
                  ("location", .sv "London Bridge"), ("date", .sv "2019-01-01"),
                  ("severity", .sv "Slight"), ("borough", .sv "Southwark"),
                  ("casualties", .sv "[\x7b'age': 30\x7d]"),
                  ("vehicles", .sv "[\x7b't': 'Car'\x7d]")])] }

/-- The table after `cFullChunk` commits into the fresh table: its one
wire line, with the JSON fields CSV-quoted. -/
def c2Committed : Table :=
  { schemaCols := tableColumnNames,
    rows := ["7\t51.5\t-0.1\tLondon Bridge\t2019-01-01 00:00:00\tSlight\tSouthwark\t\"[\x7b\"\"age\"\": 30\x7d]\"\t\"[\x7b\"\"t\"\": \"\"Car\"\"\x7d]\""] }

/-- A corrupted chunk: no `id`/`accident_id` column at all, so the
transformer raises `KeyError`. -/
def c2BadChunk : Frame :=
  { cols := ["date"], rows := [(0, [("date", .sv "2019-01-01")])] }

/-- One extractable source file containing a loadable chunk. -/
def c4File : SourceFile := ⟨"accidents_2019.csv.gz", true, [cFullChunk]⟩

/-- A stale table left over from a previous run. -/
def staleTable : Table := { schemaCols := tableColumnNames, rows := ["stale-row"] }

/-- One extractable source file containing a loadable chunk (for the
file deletion claim). -/
def c6File : SourceFile := ⟨"accidents_2018.csv.gz", true, [cFullChunk]⟩

/-- A chunk whose transform has a null field in the output (used to show
what the COPY buffer contains for nulls). -/
def c7Chunk : Frame :=
  { cols := ["id", "date", "severity", "casualties"],
    rows := [(0, [("id", .sv "7"), ("date", .sv "bad-date"), ("severity", .na),
                  ("casualties", .sv "[\x7b'$type':'X','age':30\x7d]")])] }

/-- A chunk with one malformed and one valid `accident_date`. -/
def c8Chunk : Frame :=
  { cols := ["accident_id", "accident_date"],
    rows := [(0, [("accident_id", .iv 1), ("accident_date", .sv "not-a-date")]),
             (1, [("accident_id", .iv 2), ("accident_date", .sv "2017-03-05T08:30:00Z")])] }

/-- A chunk with no `accident_id` column after renaming. -/
def c9NoId : Frame :=
  { cols := ["date", "severity"],
    rows := [(0, [("date", .sv "2019-01-01"), ("severity", .sv "Slight")])] }

/-- A chunk with an `accident_id` column but no `accident_date` column
after renaming. -/
def c9NoDate : Frame :=
  { cols := ["id", "severity"],
    rows := [(0, [("id", .sv "3"), ("severity", .sv "Slight")])] }

/-- A chunk with both required columns. -/
def c9Ok : Frame :=
  { cols := ["id", "date"],
    rows := [(0, [("id", .sv "5"), ("date", .sv "2019-01-01")])] }

/-! # Theorems -/

/-- C1: the claim says a row whose `accident_id` fails numeric parsing is
excluded from the transformed chunk and no null-id row remains.  On the
code this is false: `pd.to_numeric(...).dropna().astype(int)` drops the
label from the assigned Series, but assigning the Series back to
`df["accident_id"]` re-aligns on the row index and fills the dropped
label with `NaN` — the row stays, with a null `accident_id`.  At the
concrete chunk `c1Chunk` (ids `"abc"` and `"42"`) both rows survive and
the failing row carries a null id. -/
theorem C1_failing_id_row_retained_with_null_id :
    clean_and_transform_data c1Chunk = .ok c1Expected ∧
    c1Expected.rows.length = c1Chunk.rows.length ∧
    c1Expected.rows.map (fun p => rowGet p.2 "accident_id") = [Cell.na, Cell.iv 42] := by
  decide

/-- C3: the claim says the Record Sanitizer never lets an exception
escape — every string input yields valid JSON text or null, with any
parse failure recovered to null.  On the code this is false: the input
`"[1, 2]"` parses to a list whose elements are integers, so line 87's
`item.items()` raises `AttributeError`, which the
`except (ValueError, SyntaxError)` clause of line 90 does not catch, and
the exception escapes the sanitizer mid-batch.  (The code has further
escape paths outside the modelled literal fragment: `ast.literal_eval`
also parses set, bytes and complex literals such as `"\x7b1, 2\x7d"`,
on which line 88's or 89's `json.dumps` raises an uncaught
`TypeError`.) -/
theorem C3_counterexample_sanitizer_raises :
    sanitize_json_field (some "[1, 2]") = .error .attributeError := by decide

/-- C5: the claim asserts `sanitize (sanitize x) = sanitize x` for every
canonical sanitizer output `x`.  Counterexample: `x = "[1, 2]"` is a
canonical output (it is `sanitize "(1, 2)"`, and it is the `json.dumps`
image of the pair), yet `sanitize x` raises `AttributeError`, so the
equation does not even evaluate. -/
theorem C5_counterexample_canonical_output_raises :
    sanitize_json_field (some "(1, 2)") = .ok (some "[1, 2]") ∧
    pyDumps (.plist (.cons (.pint 1) (.cons (.pint 2) .nil))) = "[1, 2]" ∧
    sanitize_json_field (some "[1, 2]") = .error .attributeError := by decide

/-- C7: the claim says every null field is serialized as the literal
`NULL` sentinel of the COPY statement.  On the code this is false:
`chunk.to_csv(...)` keeps the pandas default `na_rep=''`, so nulls are
written as empty strings while the COPY statement declares `NULL 'NULL'`
— at the concrete chunk `c7Chunk` the null `accident_date` and
`severity` fields appear as empty strings between tabs.  The
tab-delimiter and the explicit column list in canonical schema order are
as claimed. -/
theorem C7_nulls_serialized_as_empty_string :
    processChunk c7Chunk = .ok ["7\t\t\t\"[\x7b\"\"age\"\": 30\x7d]\""] ∧
    renderCell Cell.na = "" ∧
    copyNullSentinel = "NULL" ∧
    renderCell Cell.na ≠ copyNullSentinel ∧
    copyColumnList = tableColumnNames := by decide

/-- C10: the Schema Manager's DROP and CREATE run on one connection and
are committed by a single `conn.commit()`; if the CREATE fails after the
DROP (`createOk = false`), the `except` clause skips the commit and the
`finally` close discards the open transaction, so the pre-existing table
(whatever it was) is unchanged; when everything succeeds the table is the
fresh empty one. -/
theorem C10_reset_transactional (db : Option Table) (connOk dropOk : Bool) :
    recreate_table connOk dropOk false db = db ∧
    recreate_table true true true db = some freshTable := by
  cases connOk <;> cases dropOk <;>
    simp [recreate_table, connClose, execDrop, execCreate, txnCommit]

/-- C4: the claim says a failed table reset aborts the run before any
load attempt.  Counterexample: with the CREATE failing (`createOk =
false`) and a stale table left from a previous run, `recreate_table`
logs and returns, and `process_pipeline` goes on to extract and load the
listed file — the trace shows a load started (and even succeeding into
the stale table) right after the failed reset. -/
theorem C4_counterexample_load_attempted_after_failed_reset :
    (process_pipeline ⟨true, false, true⟩ (some staleTable) [c4File]).events =
      [.resetFailed, .loadStarted "accidents_2019.csv.gz", .loadOk "accidents_2019.csv.gz"] ∧
    Event.loadStarted "accidents_2019.csv.gz" ∈
      (process_pipeline ⟨true, false, true⟩ (some staleTable) [c4File]).events := by decide

/-- C6: the claim says a successfully loaded source file is deleted
afterwards.  Counterexample: a run in which the file loads completely
(`loadOk` in the trace) still ends with the compressed source present —
`process_pipeline` contains no deletion. -/
theorem C6_counterexample_source_not_deleted_after_load :
    (process_pipeline ⟨true, true, true⟩ none [c6File]).events =
      [.resetOk, .loadStarted "accidents_2018.csv.gz", .loadOk "accidents_2018.csv.gz"] ∧
    (process_pipeline ⟨true, true, true⟩ none [c6File]).fsFiles = ["accidents_2018.csv.gz"] := by
  decide

/-- C6 (amended): the pipeline never deletes source compressed files —
after any run, whatever its faults and outcomes, the files on disk are
exactly the files listed before the run; `Failed` files are left in
place as the claim says, but so are `Loaded` ones. -/
theorem C6_amended_no_source_deletion (fault : PipeFault) (db : Option Table)
    (files : List SourceFile) :
    (process_pipeline fault db files).fsFiles = files.map (fun f => f.name) := rfl

/-- Load attempts recorded by the per-file loop: every file whose
extraction succeeds gets exactly one `loadStarted` event, in listing
order, whatever the database state and the outcomes of earlier files. -/
theorem pipeFold_loadStarts (fault : PipeFault) :
    ∀ (files : List SourceFile) (db : Option Table),
    ((pipeFold fault db files).2).filter isLoadStart =
      (files.filter (fun f => f.extractOk)).map (fun f => Event.loadStarted f.name) := by
  intro files
  induction files with
  | nil => intro db; simp [pipeFold]
  | cons f fs ih =>
    intro db
    cases he : f.extractOk with
    | false => simp [pipeFold, loadFilePhase, he, isLoadStart, ih, List.filter_append]
    | true =>
      cases hr : (load_csv_in_batches fault.loadConnOk db f.chunks).2 <;>
        simp [pipeFold, loadFilePhase, he, hr, isLoadStart, ih, List.filter_append]

/-- A successful per-chunk COPY appends exactly the chunk's wire lines
and keeps the schema. -/
theorem copyChunk_some (t t2 : Table) (lines : List String)
    (h : copyChunk t lines = some t2) :
    t2.schemaCols = t.schemaCols ∧ t2.rows = t.rows ++ lines := by
  unfold copyChunk at h
  split at h
  · injection h with h2
    subst h2
    exact ⟨rfl, rfl⟩
  · exact Option.noConfusion h

/-- A fully committed prefix holds the original rows followed by each of
its chunks' wire lines, in order. -/
theorem copyFoldOk_rows (good : List Frame) :
    ∀ (t t2 : Table), copyFoldOk t good = some t2 →
      t2.schemaCols = t.schemaCols ∧ t2.rows = t.rows ++ (good.map okLines).flatten := by
  induction good with
  | nil =>
    intro t t2 h
    have h0 : t = t2 := by injection h
    subst h0
    simp
  | cons c cs ih =>
    intro t t2 h
    cases hpc : processChunk c with
    | error e => simp [copyFoldOk, hpc] at h
    | ok lines =>
      cases hcc : copyChunk t lines with
      | none => simp [copyFoldOk, hpc, hcc] at h
      | some t3 =>
        have h2 : copyFoldOk t3 cs = some t2 := by
          simpa [copyFoldOk, hpc, hcc] using h
        obtain ⟨hs3, hr3⟩ := copyChunk_some t t3 lines hcc
        obtain ⟨hs, hr⟩ := ih t3 t2 h2
        refine ⟨by rw [hs, hs3], ?_⟩
        rw [hr, hr3]
        have hoc : okLines c = lines := by simp [okLines, hpc]
        simp [hoc, List.append_assoc]

/-- Chunk-loop characterization: a prefix that transforms, COPY-validates
and commits chunk by chunk, followed by a chunk that raises (in the
transform or server-side in the COPY), stops the loop with only a
rollback of the failing chunk's transaction, leaving exactly the
committed prefix in the table. -/
theorem loadChunksLoop_prefix (good : List Frame) :
    ∀ (t t2 : Table) (bad : Frame) (rest : List Frame),
    copyFoldOk t good = some t2 →
    chunkFails t2 bad = true →
    loadChunksLoop (some t) (good ++ bad :: rest) = (some t2, false) := by
  induction good with
  | nil =>
    intro t t2 bad rest hg hb
    have h0 : t = t2 := by injection hg
    subst h0
    rw [List.nil_append]
    unfold chunkFails at hb
    cases hpb : processChunk bad with
    | error e => simp [loadChunksLoop, hpb]
    | ok lines =>
      rw [hpb] at hb
      simp only [] at hb
      cases hcb : copyChunk t lines with
      | some t3 => rw [hcb] at hb; simp [Option.isNone] at hb
      | none => simp [loadChunksLoop, hpb, hcb]
  | cons c good ih =>
    intro t t2 bad rest hg hb
    cases hpc : processChunk c with
    | error e => simp [copyFoldOk, hpc] at hg
    | ok lines =>
      cases hcc : copyChunk t lines with
      | none => simp [copyFoldOk, hpc, hcc] at hg
      | some t3 =>
        have hg2 : copyFoldOk t3 good = some t2 := by
          simpa [copyFoldOk, hpc, hcc] using hg
        simp [loadChunksLoop, hpc, hcc, ih t3 t2 bad rest hg2 hb]

/-- C2: per-chunk commits with rollback isolation.  If every chunk of a
prefix transforms, COPY-validates and commits, and the next chunk raises
an error — in the transform or server-side in the COPY — then the load
of that file ends with exactly the prefix committed: the resulting table
is the prefix table, whose rows are the original rows followed by the
prefix chunks' wire lines, the failing chunk's transaction is rolled
back, nothing of it or of the remaining chunks reaches the table, and
the file is reported failed; and the pipeline loop still gives every
subsequent extractable file its load attempt. -/
theorem C2_chunk_commit_isolation :
    (∀ (t t2 : Table) (good : List Frame) (bad : Frame) (rest : List Frame),
      copyFoldOk t good = some t2 →
      chunkFails t2 bad = true →
      load_csv_in_batches true (some t) (good ++ bad :: rest) = (some t2, false) ∧
      t2.rows = t.rows ++ (good.map okLines).flatten) ∧
    (∀ (fault : PipeFault) (db : Option Table) (files : List SourceFile),
      ((pipeFold fault db files).2).filter isLoadStart =
        (files.filter (fun f => f.extractOk)).map (fun f => Event.loadStarted f.name)) := by
  constructor
  · intro t t2 good bad rest hg hb
    refine ⟨?_, (copyFoldOk_rows good t t2 hg).2⟩
    have h := loadChunksLoop_prefix good t t2 bad rest hg hb
    simpa [load_csv_in_batches] using h
  · intro fault db files
    exact pipeFold_loadStarts fault files db

/-- C2 witness: one loadable chunk, then a corrupted chunk (no id
column), then another chunk; only the first chunk's wire line is
committed and the load is reported failed. -/
theorem C2_chunk_commit_isolation_witness :
    (load_csv_in_batches true (some freshTable) ([cFullChunk] ++ c2BadChunk :: [cFullChunk]) =
      (some c2Committed, false) ∧
     c2Committed.rows = freshTable.rows ++ (([cFullChunk].map okLines).flatten)) :=
  C2_chunk_commit_isolation.1 freshTable c2Committed [cFullChunk] c2BadChunk [cFullChunk]
    (by decide) (by decide)

/-- C4 (amended): a failed schema reset is logged (`resetFailed` heads
the trace) and the run continues — `recreate_table` swallows its
exception and `process_pipeline` still attempts the batch load of every
extractable source file. -/
theorem C4_amended_failed_reset_continues (fault : PipeFault) (db : Option Table)
    (files : List SourceFile) (h : fault.resetConnOk = false ∨ fault.createOk = false) :
    (process_pipeline fault db files).events.head? = some Event.resetFailed ∧
    ((process_pipeline fault db files).events).filter isLoadStart =
      (files.filter (fun f => f.extractOk)).map (fun f => Event.loadStarted f.name) := by
  have hev : (process_pipeline fault db files).events
      = Event.resetFailed ::
        (pipeFold fault (recreate_table fault.resetConnOk true fault.createOk db) files).2 := by
    rcases h with h | h <;> simp [process_pipeline, h]
  rw [hev]
  refine ⟨rfl, ?_⟩
  rw [List.filter_cons]
  simp only [isLoadStart, if_neg]
  simp only [Bool.false_eq_true, if_false]
  exact pipeFold_loadStarts fault files _

/-- C4 witness: reset connection down, one extractable file — the trace
heads with the failed reset and still records the file's load attempt. -/
theorem C4_amended_witness :
    (process_pipeline ⟨false, true, true⟩ none [c4File]).events.head? =
      some Event.resetFailed ∧
    ((process_pipeline ⟨false, true, true⟩ none [c4File]).events).filter isLoadStart =
      (([c4File] : List SourceFile).filter (fun f => f.extractOk)).map
        (fun f => Event.loadStarted f.name) :=
  C4_amended_failed_reset_continues ⟨false, true, true⟩ none [c4File] (Or.inl rfl)

/-- Alignment of a Series built from the rows with the row index: with
distinct labels, looking the Series up at a row's label finds that row's
entry. -/
theorem seriesLookup_map_value (g : Nat × List (String × Cell) → Cell) :
    ∀ (rows : List (Nat × List (String × Cell))),
    (rows.map Prod.fst).Nodup →
    ∀ p ∈ rows, seriesLookup (rows.map (fun q => (q.1, g q))) p.1 = some (g p) := by
  intro rows
  induction rows with
  | nil => intro _ p hp; cases hp
  | cons a tl ih =>
    intro hnd p hp
    rw [List.map_cons, List.nodup_cons] at hnd
    obtain ⟨ha, htl⟩ := hnd
    rcases List.mem_cons.mp hp with hp | hp
    · subst hp
      simp [seriesLookup, List.find?]
    · have hne : (a.1 == p.1) = false := by
        rw [beq_eq_false_iff_ne]
        intro hEq
        exact ha (hEq ▸ List.mem_map.mpr ⟨p, hp, rfl⟩)
      have := ih htl p hp
      simpa [seriesLookup, List.find?, hne] using this

/-- C8: the `accident_date` coercion never raises when the column is
present, keeps every row (the chunk's row count is unchanged), and
rewrites each row's date cell to its parse — which is null exactly when
parsing fails. -/
theorem C8_date_coercion_keeps_rows (df : Frame)
    (hcol : "accident_date" ∈ df.cols)
    (hnd : (df.rows.map Prod.fst).Nodup) :
    dateCoerceStep df = .ok
      { cols := df.cols,
        rows := df.rows.map (fun p =>
          (p.1, rowSet p.2 "accident_date" (toDatetimeCell (rowGet p.2 "accident_date")))) } ∧
    (∀ out, dateCoerceStep df = .ok out → out.rows.length = df.rows.length) ∧
    (∀ s, parseIsoDate s = none → toDatetimeCell (Cell.sv s) = Cell.na) := by
  have hmain : dateCoerceStep df = .ok
      { cols := df.cols,
        rows := df.rows.map (fun p =>
          (p.1, rowSet p.2 "accident_date" (toDatetimeCell (rowGet p.2 "accident_date")))) } := by
    have hgc : getColSeries df "accident_date" =
        .ok (df.rows.map (fun p => (p.1, rowGet p.2 "accident_date"))) := by
      simp [getColSeries, hcol]
    rw [dateCoerceStep, hgc]
    simp only [setColSeries, if_pos hcol, List.map_map, astypeIntSeries]
    congr 1
    congr 1
    apply List.map_congr_left
    intro p hp
    have hlk := seriesLookup_map_value
      (fun q => toDatetimeCell (rowGet q.2 "accident_date")) df.rows hnd p hp
    show (p.1, rowSet p.2 "accident_date"
        ((seriesLookup
          (df.rows.map (fun q => (q.1, toDatetimeCell (rowGet q.2 "accident_date")))) p.1).getD
            Cell.na)) =
      (p.1, rowSet p.2 "accident_date" (toDatetimeCell (rowGet p.2 "accident_date")))
    rw [hlk]
    rfl
  refine ⟨hmain, ?_, ?_⟩
  · intro out hout
    rw [hmain] at hout
    cases hout
    simp
  · intro s hs
    simp [toDatetimeCell, hs]

/-- C8 witness: a concrete chunk with one malformed and one valid date. -/
theorem C8_date_coercion_witness :
    dateCoerceStep c8Chunk = .ok
      { cols := c8Chunk.cols,
        rows := c8Chunk.rows.map (fun p =>
          (p.1, rowSet p.2 "accident_date" (toDatetimeCell (rowGet p.2 "accident_date")))) } :=
  (C8_date_coercion_keeps_rows c8Chunk (by decide) (by decide)).1

/-- Successful id coercion: with the `accident_id` column present the
step returns normally and does not change the column list. -/
theorem idCoerceStep_ok_cols (d : Frame) (hid : "accident_id" ∈ d.cols) :
    ∃ d4, idCoerceStep d = .ok d4 ∧ d4.cols = d.cols := by
  refine ⟨setColSeries d "accident_id" (astypeIntSeries (dropnaSeries
    ((d.rows.map (fun p => (p.1, rowGet p.2 "accident_id"))).map
      (fun p => (p.1, toNumericCell p.2))))), ?_, ?_⟩
  · simp [idCoerceStep, getColSeries, hid]
  · simp [setColSeries, if_pos hid]

/-- C9: partiality of the Row Transformer in its columns, as the code has
it.  If the chunk lacks an `accident_id` column after the fixed renaming,
line 150's `df["accident_id"]` raises `KeyError`; with an id column but
no `accident_date` column, line 153 raises `KeyError` on the date; and a
normal return implies both columns were present after renaming. -/
theorem C9_transformer_requires_id_and_date (df : Frame) :
    ("accident_id" ∉ (renameFrame (dropTypeCol df)).cols →
      clean_and_transform_data df = .error (.keyError "accident_id")) ∧
    ("accident_id" ∈ (renameFrame (dropTypeCol df)).cols →
      "accident_date" ∉ (renameFrame (dropTypeCol df)).cols →
      clean_and_transform_data df = .error (.keyError "accident_date")) ∧
    (∀ out, clean_and_transform_data df = .ok out →
      "accident_id" ∈ (renameFrame (dropTypeCol df)).cols ∧
      "accident_date" ∈ (renameFrame (dropTypeCol df)).cols) := by
  have hmemId : ("accident_id" ∈ (projectFrame (renameFrame (dropTypeCol df))).cols) ↔
      ("accident_id" ∈ (renameFrame (dropTypeCol df)).cols) := by
    simp [projectFrame, List.mem_filter, expectedColumns]
  have hmemDate : ("accident_date" ∈ (projectFrame (renameFrame (dropTypeCol df))).cols) ↔
      ("accident_date" ∈ (renameFrame (dropTypeCol df)).cols) := by
    simp [projectFrame, List.mem_filter, expectedColumns]
  have h1 : "accident_id" ∉ (renameFrame (dropTypeCol df)).cols →
      clean_and_transform_data df = .error (.keyError "accident_id") := by
    intro hid
    have hid3 : "accident_id" ∉ (projectFrame (renameFrame (dropTypeCol df))).cols :=
      fun h => hid (hmemId.mp h)
    simp [clean_and_transform_data, idCoerceStep, getColSeries, hid3]
  have h2 : "accident_id" ∈ (renameFrame (dropTypeCol df)).cols →
      "accident_date" ∉ (renameFrame (dropTypeCol df)).cols →
      clean_and_transform_data df = .error (.keyError "accident_date") := by
    intro hid hdate
    have hid3 := hmemId.mpr hid
    have hdate3 : "accident_date" ∉ (projectFrame (renameFrame (dropTypeCol df))).cols :=
      fun h => hdate (hmemDate.mp h)
    obtain ⟨d4, hic, hcols⟩ := idCoerceStep_ok_cols (projectFrame (renameFrame (dropTypeCol df)))
      hid3
    have hdmem : "accident_date" ∉ d4.cols := by rw [hcols]; exact hdate3
    simp [clean_and_transform_data, hic, dateCoerceStep, getColSeries, hdmem]
  refine ⟨h1, h2, ?_⟩
  intro out hout
  by_cases hid : "accident_id" ∈ (renameFrame (dropTypeCol df)).cols
  · by_cases hdate : "accident_date" ∈ (renameFrame (dropTypeCol df)).cols
    · exact ⟨hid, hdate⟩
    · rw [h2 hid hdate] at hout; cases hout
  · rw [h1 hid] at hout; cases hout

/-- C9 witness: concrete chunks missing the id column, missing the date
column, and having both. -/
theorem C9_transformer_requires_id_and_date_witness :
    clean_and_transform_data c9NoId = .error (.keyError "accident_id") ∧
    clean_and_transform_data c9NoDate = .error (.keyError "accident_date") ∧
    ("accident_id" ∈ (renameFrame (dropTypeCol c9Ok)).cols ∧
      "accident_date" ∈ (renameFrame (dropTypeCol c9Ok)).cols) :=
  ⟨(C9_transformer_requires_id_and_date c9NoId).1 (by decide),
   (C9_transformer_requires_id_and_date c9NoDate).2.1 (by decide) (by decide),
   (C9_transformer_requires_id_and_date c9Ok).2.2
     { cols := ["accident_id", "accident_date"],
       rows := [(0, [("accident_id", .iv 5),
                     ("accident_date", .tv ⟨2019, 1, 1, 0, 0, 0⟩)])] }
     (by decide)⟩

/-- Failing `cleanListItems` is exactly the presence of a non-dictionary
element in the parsed list. -/
theorem cleanListItems_none_iff :
    (items : PyList) → (cleanListItems items = none ↔ pyListHasNonDict items = true)
  | .nil => by simp [cleanListItems, pyListHasNonDict]
  | .cons hd tl => by
    have ih := cleanListItems_none_iff tl
    cases hd with
    | pdict es =>
      cases h : cleanListItems tl with
      | some tl2 => simp [cleanListItems, h, pyListHasNonDict, ← ih]
      | none => simp [cleanListItems, h, pyListHasNonDict, ← ih]
    | pnone => simp [cleanListItems, pyListHasNonDict]
    | pbool b => simp [cleanListItems, pyListHasNonDict]
    | pint n => simp [cleanListItems, pyListHasNonDict]
    | pstr s => simp [cleanListItems, pyListHasNonDict]
    | plist xs => simp [cleanListItems, pyListHasNonDict]
    | ptuple xs => simp [cleanListItems, pyListHasNonDict]

/-! ## Round-trip of `json.dumps` through `ast.literal_eval`

The lemmas below culminate in `literalEval_pyDumps`: parsing the dump of
a value either fails (exactly when the value mentions `None` or a
boolean, which serialize to the non-literal tokens `null`/`true`/`false`)
or yields its `jsonify` normal form.  They support the amended
idempotence claim C5. -/

/-- A string is its character list. -/
theorem string_mk_data (s : String) : String.mk s.data = s := by cases s; rfl

/-- A decimal digit character is one of the ten digits. -/
theorem digit_cases (c : Char) (h : c.isDigit = true) :
    c = '0' ∨ c = '1' ∨ c = '2' ∨ c = '3' ∨ c = '4' ∨
    c = '5' ∨ c = '6' ∨ c = '7' ∨ c = '8' ∨ c = '9' := by
  simp only [Char.isDigit, Bool.and_eq_true, decide_eq_true_eq] at h
  obtain ⟨h1, h2⟩ := h
  have h1n : 48 ≤ c.toNat := h1
  have h2n : c.toNat ≤ 57 := h2
  have hofn := Char.ofNat_toNat c
  interval_cases hc : c.toNat <;> rw [← hofn] <;> decide

/-- Digit characters are not whitespace and not closing delimiters. -/
theorem digit_not_special (c : Char) (h : c.isDigit = true) :
    isPySpace c = false ∧ c ≠ ']' ∧ c ≠ '\x7d' := by
  rcases digit_cases c h with h | h | h | h | h | h | h | h | h | h <;> subst h <;>
    exact ⟨by decide, by decide, by decide⟩

/-- Facts about `Nat.digitChar` on single digits. -/
theorem digitChar_facts :
    ∀ d, d < 10 → (Nat.digitChar d).isDigit = true ∧ (Nat.digitChar d).toNat = 48 + d ∧
      (1 ≤ d → Nat.digitChar d ≠ '0') := by decide

/-- Appending one digit multiplies the accumulated value by ten. -/
theorem digitsVal_append_single (ds : List Char) (c : Char) :
    digitsVal (ds ++ [c]) = 10 * digitsVal ds + (c.toNat - 48) := by
  simp [digitsVal, List.foldl_append]

/-- Specification of the decimal printer: nonempty, all digits, value
recovered by `digitsVal`, and no leading zero on a positive number. -/
theorem natCharsAux_spec :
    ∀ fuel n, n < fuel →
      (∃ d ds, natCharsAux fuel n = d :: ds) ∧
      (∀ c ∈ natCharsAux fuel n, c.isDigit = true) ∧
      digitsVal (natCharsAux fuel n) = n ∧
      (∀ d ds, natCharsAux fuel n = d :: ds → 1 ≤ n → d ≠ '0') := by
  intro fuel
  induction fuel with
  | zero => intro n h; omega
  | succ f ih =>
    intro n hn
    by_cases h10 : n < 10
    · have he : natCharsAux (f + 1) n = [Nat.digitChar n] := by simp [natCharsAux, h10]
      obtain ⟨hd1, hd2, hd3⟩ := digitChar_facts n h10
      refine ⟨⟨Nat.digitChar n, [], he⟩, ?_, ?_, ?_⟩
      · intro c hc; rw [he] at hc; simp at hc; subst hc; exact hd1
      · rw [he]; simp [digitsVal, hd2]
      · intro d ds hds hn1
        rw [he] at hds
        cases hds
        exact hd3 hn1
    · have hdiv : n / 10 < f := by omega
      obtain ⟨⟨d, ds, hd⟩, hdig, hval, hhead⟩ := ih (n / 10) hdiv
      have he : natCharsAux (f + 1) n =
          natCharsAux f (n / 10) ++ [Nat.digitChar (n % 10)] := by
        simp [natCharsAux, h10]
      obtain ⟨hm1, hm2, _⟩ := digitChar_facts (n % 10) (by omega)
      refine ⟨⟨d, ds ++ [Nat.digitChar (n % 10)], by rw [he, hd]; simp⟩, ?_, ?_, ?_⟩
      · intro c hc
        rw [he] at hc
        rcases List.mem_append.mp hc with hc | hc
        · exact hdig c hc
        · simp at hc; subst hc; exact hm1
      · rw [he, digitsVal_append_single, hval, hm2]; omega
      · intro d2 ds2 hds2 _
        rw [he, hd] at hds2
        simp at hds2
        rw [← hds2.1]
        exact hhead d ds hd (by omega)

/-- Specification of `natChars`. -/
theorem natChars_spec (n : Nat) :
    (∃ d ds, natChars n = d :: ds) ∧
    (∀ c ∈ natChars n, c.isDigit = true) ∧
    digitsVal (natChars n) = n ∧
    (∀ d ds, natChars n = d :: ds → 1 ≤ n → d ≠ '0') :=
  natCharsAux_spec (n + 1) n (Nat.lt_succ_self n)

/-- `takeDigits` splits a digit prefix at a non-digit boundary. -/
theorem takeDigits_append :
    ∀ (ds rest : List Char), (∀ c ∈ ds, c.isDigit = true) → noDigitHead rest →
      takeDigits (ds ++ rest) = (ds, rest) := by
  intro ds
  induction ds with
  | nil =>
    intro rest _ hr
    cases rest with
    | nil => rfl
    | cons c tl =>
      simp only [noDigitHead] at hr
      simp [takeDigits, hr]
  | cons d ds ih =>
    intro rest hds hr
    have hd := hds d (by simp)
    simp [takeDigits, hd, ih rest (fun c hc => hds c (by simp [hc])) hr]

/-- Parsing the decimal print of a natural number at a non-digit
boundary recovers the number. -/
theorem parseNat_natChars (n : Nat) (rest : List Char) (hr : noDigitHead rest) :
    parseNat (natChars n ++ rest) = some (n, rest) := by
  obtain ⟨⟨d, ds, hd⟩, hdig, hval, hhead⟩ := natChars_spec n
  simp only [parseNat, takeDigits_append (natChars n) rest hdig hr]
  rw [hd]
  by_cases h0 : d = '0' ∧ ds ≠ []
  · exfalso
    obtain ⟨h0d, h0s⟩ := h0
    by_cases hn : 1 ≤ n
    · exact hhead d ds hd hn h0d
    · have hn0 : n = 0 := by omega
      subst hn0
      have : natChars 0 = ['0'] := by decide
      rw [this] at hd
      cases hd
      exact h0s rfl
  · simp only [h0, if_false]
    rw [← hd, hval]

/-- Dropping whitespace stops at a non-whitespace head. -/
theorem skipWs_not_ws (c : Char) (l : List Char) (h : isPySpace c = false) :
    skipWs (c :: l) = c :: l := by
  simp [skipWs, List.dropWhile_cons, h]

/-- Dropping whitespace passes over a single blank. -/
theorem skipWs_space (l : List Char) : skipWs (' ' :: l) = skipWs l := by
  have h : isPySpace ' ' = true := by decide
  simp [skipWs, List.dropWhile_cons, h]

/-- `hexVal` inverts `hexDigitChar` on single hexadecimal digits. -/
theorem hexVal_hexDigitChar : ∀ n, n < 16 → hexVal (hexDigitChar n) = some n := by decide

/-- Decoding a `json.dumps`-escaped string body recovers the original
characters and stops at the closing quote. -/
theorem parseStrBody_jsonEscape :
    ∀ (cs rest : List Char),
      parseStrBody '"' (jsonEscape cs ++ '"' :: rest) = some (cs, rest) := by
  intro cs
  induction cs with
  | nil =>
    intro rest
    simp [jsonEscape, parseStrBody]
  | cons c tl ih =>
    intro rest
    rw [show jsonEscape (c :: tl) = jsonEscapeChar c ++ jsonEscape tl from rfl,
      List.append_assoc]
    by_cases h1 : c = '"'
    · subst h1
      rw [show jsonEscapeChar '"' = ['\\', '"'] from rfl]
      simp only [List.cons_append, List.nil_append]
      rw [show parseStrBody '"' ('\\' :: '"' :: (jsonEscape tl ++ '"' :: rest)) =
        consResult '"' (parseStrBody '"' (jsonEscape tl ++ '"' :: rest)) from rfl, ih rest]
      rfl
    · by_cases h2 : c = '\\'
      · subst h2
        rw [show jsonEscapeChar '\\' = ['\\', '\\'] from rfl]
        simp only [List.cons_append, List.nil_append]
        rw [show parseStrBody '"' ('\\' :: '\\' :: (jsonEscape tl ++ '"' :: rest)) =
          consResult '\\' (parseStrBody '"' (jsonEscape tl ++ '"' :: rest)) from rfl, ih rest]
        rfl
      · by_cases h3 : c = '\n'
        · subst h3
          rw [show jsonEscapeChar '\n' = ['\\', 'n'] from rfl]
          simp only [List.cons_append, List.nil_append]
          rw [show parseStrBody '"' ('\\' :: 'n' :: (jsonEscape tl ++ '"' :: rest)) =
            consResult '\n' (parseStrBody '"' (jsonEscape tl ++ '"' :: rest)) from rfl, ih rest]
          rfl
        · by_cases h4 : c = '\t'
          · subst h4
            rw [show jsonEscapeChar '\t' = ['\\', 't'] from rfl]
            simp only [List.cons_append, List.nil_append]
            rw [show parseStrBody '"' ('\\' :: 't' :: (jsonEscape tl ++ '"' :: rest)) =
              consResult '\t' (parseStrBody '"' (jsonEscape tl ++ '"' :: rest)) from rfl,
              ih rest]
            rfl
          · by_cases h5 : c = '\r'
            · subst h5
              rw [show jsonEscapeChar '\r' = ['\\', 'r'] from rfl]
              simp only [List.cons_append, List.nil_append]
              rw [show parseStrBody '"' ('\\' :: 'r' :: (jsonEscape tl ++ '"' :: rest)) =
                consResult '\r' (parseStrBody '"' (jsonEscape tl ++ '"' :: rest)) from rfl,
                ih rest]
              rfl
            · by_cases h6 : c = '\x08'
              · subst h6
                rw [show jsonEscapeChar '\x08' = ['\\', 'b'] from rfl]
                simp only [List.cons_append, List.nil_append]
                rw [show parseStrBody '"' ('\\' :: 'b' :: (jsonEscape tl ++ '"' :: rest)) =
                  consResult '\x08' (parseStrBody '"' (jsonEscape tl ++ '"' :: rest)) from rfl,
                  ih rest]
                rfl
              · by_cases h7 : c = '\x0c'
                · subst h7
                  rw [show jsonEscapeChar '\x0c' = ['\\', 'f'] from rfl]
                  simp only [List.cons_append, List.nil_append]
                  rw [show parseStrBody '"' ('\\' :: 'f' :: (jsonEscape tl ++ '"' :: rest)) =
                    consResult '\x0c' (parseStrBody '"' (jsonEscape tl ++ '"' :: rest)) from
                      rfl,
                    ih rest]
                  rfl
                · by_cases h8 : c.toNat < 32
                  · have he : jsonEscapeChar c = ['\\', 'u', '0', '0',
                        hexDigitChar (c.toNat / 16), hexDigitChar (c.toNat % 16)] := by
                      rw [jsonEscapeChar, if_neg h1, if_neg h2, if_neg h3, if_neg h4,
                        if_neg h5, if_neg h6, if_neg h7, if_pos h8]
                    rw [he]
                    simp only [List.cons_append, List.nil_append]
                    rw [parseStrBody, if_neg (by decide), if_neg (by decide),
                      if_pos (by decide : ('\\' : Char) = '\\'), parseEsc,
                      if_pos (by decide : ('u' : Char) = 'u'), parseUEsc,
                      show hexVal '0' = some 0 from rfl,
                      hexVal_hexDigitChar (c.toNat / 16) (by omega),
                      hexVal_hexDigitChar (c.toNat % 16) (by omega)]
                    have hn : ((0 * 16 + 0) * 16 + c.toNat / 16) * 16 + c.toNat % 16 =
                        c.toNat := by omega
                    simp only [hn]
                    rw [if_neg (by omega : ¬(55296 ≤ c.toNat ∧ c.toNat ≤ 57343)),
                      Char.ofNat_toNat, ih rest]
                    rfl
                  · have he : jsonEscapeChar c = [c] := by
                      rw [jsonEscapeChar, if_neg h1, if_neg h2, if_neg h3, if_neg h4,
                        if_neg h5, if_neg h6, if_neg h7, if_neg h8]
                    rw [he]
                    simp only [List.cons_append, List.nil_append]
                    rw [parseStrBody, if_neg h1, if_neg (by simp [h3, h5]), if_neg h2,
                      ih rest]
                    rfl

/-- The integer printer on a non-negative integer. -/
theorem intChars_ofNat (m : Nat) : intChars (Int.ofNat m) = natChars m := by
  rw [intChars, if_neg (by rw [Int.ofNat_eq_natCast]; omega : ¬(Int.ofNat m < 0))]
  rw [Int.ofNat_eq_natCast, Int.toNat_ofNat]

/-- The integer printer on a negative integer. -/
theorem intChars_negSucc (m : Nat) : intChars (Int.negSucc m) = '-' :: natChars (m + 1) := by
  rw [intChars, if_pos (Int.negSucc_lt_zero m), Int.natAbs_negSucc]

/-- Every dump starts with a character that is not whitespace and not a
closing delimiter. -/
theorem emit_head (v : PyVal) :
    ∃ c cs, emit v = c :: cs ∧ isPySpace c = false ∧ c ≠ ']' ∧ c ≠ '\x7d' := by
  cases v with
  | pnone => exact ⟨'n', _, rfl, by decide⟩
  | pbool b =>
    cases b with
    | true => exact ⟨'t', _, rfl, by decide⟩
    | false => exact ⟨'f', _, rfl, by decide⟩
  | pint n =>
    rcases n with m | m
    · obtain ⟨⟨d, ds, hd⟩, hdig, _, _⟩ := natChars_spec m
      obtain ⟨hw, hb, hc⟩ := digit_not_special d (hdig d (by rw [hd]; simp))
      exact ⟨d, ds,
        by rw [show emit (.pint (Int.ofNat m)) = intChars (Int.ofNat m) from rfl,
          intChars_ofNat, hd], hw, hb, hc⟩
    · exact ⟨'-', natChars (m + 1),
        by rw [show emit (.pint (Int.negSucc m)) = intChars (Int.negSucc m) from rfl,
          intChars_negSucc], by decide⟩
  | pstr s => exact ⟨'"', _, rfl, by decide⟩
  | plist xs => exact ⟨'[', _, rfl, by decide⟩
  | ptuple xs => exact ⟨'[', _, rfl, by decide⟩
  | pdict es => exact ⟨'\x7b', _, rfl, by decide⟩

/-- The continuation of an element sequence never starts with a digit. -/
theorem noDigitHead_seqPre (tl : PyList) (rest : List Char) :
    noDigitHead (emitSeqPre tl ++ ']' :: rest) := by
  cases tl with
  | nil =>
    simp only [emitSeqPre, List.nil_append, noDigitHead]
    decide
  | cons x tl =>
    simp only [emitSeqPre, List.cons_append, noDigitHead]
    decide

/-- The continuation of a dictionary entry sequence never starts with a
digit. -/
theorem noDigitHead_dictPre (tl : PyDict) (rest : List Char) :
    noDigitHead (emitDictPre tl ++ '\x7d' :: rest) := by
  cases tl with
  | nil =>
    simp only [emitDictPre, List.nil_append, noDigitHead]
    decide
  | cons k v tl =>
    simp only [emitDictPre, List.cons_append, noDigitHead]
    decide

/-- Parser bounds are positive. -/
theorem bnd_pos (v : PyVal) : 1 ≤ bnd v := by
  cases v <;> simp [bnd]

/-- Sequence bounds are positive. -/
theorem bndSeq_pos (xs : PyList) : 1 ≤ bndSeq xs := by
  cases xs <;> simp [bndSeq]

/-- Sequence-continuation bounds are positive. -/
theorem bndSeqPre_pos (xs : PyList) : 1 ≤ bndSeqPre xs := by
  cases xs <;> simp [bndSeqPre]

/-- Dictionary bounds are positive. -/
theorem bndDict_pos (es : PyDict) : 1 ≤ bndDict es := by
  cases es <;> simp [bndDict]
  omega

/-- Dictionary-continuation bounds are positive. -/
theorem bndDictPre_pos (es : PyDict) : 1 ≤ bndDictPre es := by
  cases es <;> simp [bndDictPre]
  omega

mutual

/-- The parser bound of a value is dominated by twice its dump length. -/
theorem bnd_le : (v : PyVal) → bnd v ≤ 2 * (emit v).length
  | .pnone => by simp [bnd, emit]
  | .pbool b => by cases b <;> simp [bnd, emit]
  | .pint n => by
    obtain ⟨c, cs, hc, _⟩ := emit_head (.pint n)
    simp [bnd, hc]
    omega
  | .pstr s => by simp [bnd, emit]; omega
  | .plist xs => by
    have h := bndSeq_le xs
    simp only [bnd, emit, List.length_cons, List.length_append, List.length_singleton]
    omega
  | .ptuple xs => by
    have h := bndSeq_le xs
    simp only [bnd, emit, List.length_cons, List.length_append, List.length_singleton]
    omega
  | .pdict es => by
    have h := bndDict_le es
    simp only [bnd, emit, List.length_cons, List.length_append, List.length_singleton]
    omega

/-- Bound of an element sequence against its dump length. -/
theorem bndSeq_le : (xs : PyList) → bndSeq xs ≤ 2 * (emitSeq xs).length + 2
  | .nil => by simp [bndSeq, emitSeq]
  | .cons x tl => by
    have h1 := bnd_le x
    have h2 := bndSeqPre_le tl
    obtain ⟨c, cs, hc, _⟩ := emit_head x
    have hlen : 1 ≤ (emit x).length := by rw [hc]; simp
    simp only [bndSeq, emitSeq, List.length_append]
    omega

/-- Bound of a sequence continuation against its dump length. -/
theorem bndSeqPre_le : (xs : PyList) → bndSeqPre xs ≤ 2 * (emitSeqPre xs).length + 2
  | .nil => by simp [bndSeqPre, emitSeqPre]
  | .cons x tl => by
    have h1 := bnd_le x
    have h2 := bndSeqPre_le tl
    simp only [bndSeqPre, emitSeqPre, List.length_cons, List.length_append]
    omega

/-- Bound of a dictionary body against its dump length. -/
theorem bndDict_le : (es : PyDict) → bndDict es ≤ 2 * (emitDict es).length + 2
  | .nil => by simp [bndDict, emitDict]
  | .cons k v tl => by
    have h1 := bnd_le v
    have h2 := bndDictPre_le tl
    simp only [bndDict, emitDict, List.length_cons, List.length_append,
      List.length_singleton]
    omega

/-- Bound of a dictionary continuation against its dump length. -/
theorem bndDictPre_le : (es : PyDict) → bndDictPre es ≤ 2 * (emitDictPre es).length + 2
  | .nil => by simp [bndDictPre, emitDictPre]
  | .cons k v tl => by
    have h1 := bnd_le v
    have h2 := bndDictPre_le tl
    simp only [bndDictPre, emitDictPre, List.length_cons, List.length_append,
      List.length_singleton]
    omega

end

/-- One step of `parseVal` on a digit head: the number branch. -/
theorem parseVal_digit (f : Nat) (c : Char) (tl : List Char) (h : c.isDigit = true) :
    parseVal (f + 1) (c :: tl) =
      match parseNat (c :: tl) with
      | some (n, r2) => some (.pint (n : Int), r2)
      | none => none := by
  rcases digit_cases c h with h | h | h | h | h | h | h | h | h | h <;> subst h <;> rfl

/-- One step of `parseSeq` on a non-blank head. -/
theorem parseSeq_step (close : Char) (f : Nat) (c : Char) (Y : List Char)
    (hws : isPySpace c = false) :
    parseSeq close (f + 1) (c :: Y) =
      if c = close then some (.nil, Y)
      else
        match parseVal f (c :: Y) with
        | some (v, r) =>
          (match parseSeqRest close f r with
           | some (xs, r2) => some (.cons v xs, r2)
           | none => none)
        | none => none := by
  rw [parseSeq, skipWs_not_ws c Y hws]

/-- One step of `parseSeqRest` on a non-blank head. -/
theorem parseSeqRest_step (close : Char) (f : Nat) (c : Char) (Y : List Char)
    (hws : isPySpace c = false) :
    parseSeqRest close (f + 1) (c :: Y) =
      if c = close then some (.nil, Y)
      else if c = ',' then
        match skipWs Y with
        | [] => none
        | c2 :: tl2 =>
          if c2 = close then some (.nil, tl2)
          else
            match parseVal f (c2 :: tl2) with
            | some (v, r) =>
              (match parseSeqRest close f r with
               | some (xs, r2) => some (.cons v xs, r2)
               | none => none)
            | none => none
      else none := by
  rw [parseSeqRest, skipWs_not_ws c Y hws]

/-- One step of `parseDictBody` on a non-blank head. -/
theorem parseDictBody_step (f : Nat) (c : Char) (Y : List Char)
    (hws : isPySpace c = false) :
    parseDictBody (f + 1) (c :: Y) =
      if c = '\x7d' then some (.nil, Y)
      else
        match parseEntry f (c :: Y) with
        | some (k, v, r) =>
          (match parseDictRest (dictInsert .nil k v) f r with
           | some (es, r2) => some (es, r2)
           | none => none)
        | none => none := by
  rw [parseDictBody, skipWs_not_ws c Y hws]

/-- One step of `parseDictRest` on a non-blank head. -/
theorem parseDictRest_step (acc : PyDict) (f : Nat) (c : Char) (Y : List Char)
    (hws : isPySpace c = false) :
    parseDictRest acc (f + 1) (c :: Y) =
      if c = '\x7d' then some (acc, Y)
      else if c = ',' then
        match skipWs Y with
        | [] => none
        | c2 :: tl2 =>
          if c2 = '\x7d' then some (acc, tl2)
          else
            match parseEntry f (c2 :: tl2) with
            | some (k, v, r) =>
              (match parseDictRest (dictInsert acc k v) f r with
               | some (es, r2) => some (es, r2)
               | none => none)
            | none => none
      else none := by
  rw [parseDictRest, skipWs_not_ws c Y hws]

/-- `jsonifyKey` is the string view of a key. -/
theorem jsonifyKey_eq (k : PyKey) : jsonifyKey k = .ks (keyStr k) := by
  cases k <;> rfl

/-- Round trip of the parser over the serializer: with enough fuel,
parsing the dump of a value (sequence, dictionary, entry) fails exactly
when it mentions `None` or a boolean, and otherwise yields its `jsonify`
normal form and consumes exactly the dump. -/
theorem parseRound : ∀ fuel : Nat,
    (∀ (v : PyVal) (rest : List Char), bnd v ≤ fuel → noDigitHead rest →
      parseVal fuel (emit v ++ rest) =
        if mentionsBoolNone v then none else some (jsonify v, rest)) ∧
    (∀ (xs : PyList) (rest : List Char), bndSeq xs ≤ fuel →
      parseSeq ']' fuel (emitSeq xs ++ ']' :: rest) =
        if mentionsBoolNoneList xs then none else some (jsonifyList xs, rest)) ∧
    (∀ (xs : PyList) (rest : List Char), bndSeqPre xs ≤ fuel →
      parseSeqRest ']' fuel (emitSeqPre xs ++ ']' :: rest) =
        if mentionsBoolNoneList xs then none else some (jsonifyList xs, rest)) ∧
    (∀ (es acc : PyDict) (rest : List Char), bndDictPre es ≤ fuel →
      parseDictRest acc fuel (emitDictPre es ++ '\x7d' :: rest) =
        if mentionsBoolNoneDict es then none else some (jsonifyDict acc es, rest)) ∧
    (∀ (k : PyKey) (v : PyVal) (rest : List Char), 1 + bnd v ≤ fuel → noDigitHead rest →
      parseEntry fuel (('"' :: (jsonEscape (keyStr k).data ++ ['"'])) ++
          (':' :: ' ' :: (emit v ++ rest))) =
        if mentionsBoolNone v then none else some (jsonifyKey k, jsonify v, rest)) ∧
    (∀ (es : PyDict) (rest : List Char), bndDict es ≤ fuel →
      parseDictBody fuel (emitDict es ++ '\x7d' :: rest) =
        if mentionsBoolNoneDict es then none else some (jsonifyDict .nil es, rest)) := by
  intro fuel
  induction fuel with
  | zero =>
    refine ⟨?_, ?_, ?_, ?_, ?_, ?_⟩
    · intro v rest hb _; have := bnd_pos v; omega
    · intro xs rest hb; have := bndSeq_pos xs; omega
    · intro xs rest hb; have := bndSeqPre_pos xs; omega
    · intro es acc rest hb; have := bndDictPre_pos es; omega
    · intro k v rest hb _; have := bnd_pos v; omega
    · intro es rest hb; have := bndDict_pos es; omega
  | succ f ih =>
    obtain ⟨ihV, ihS, ihSP, ihDP, ihE, ihD⟩ := ih
    have partV : ∀ (v : PyVal) (rest : List Char), bnd v ≤ f + 1 → noDigitHead rest →
        parseVal (f + 1) (emit v ++ rest) =
          if mentionsBoolNone v then none else some (jsonify v, rest) := by
      intro v rest hb hr
      cases v with
      | pnone => rfl
      | pbool b => cases b <;> rfl
      | pint n =>
        rcases n with m | m
        · rw [show emit (.pint (Int.ofNat m)) = intChars (Int.ofNat m) from rfl,
            intChars_ofNat]
          obtain ⟨⟨d, ds, hd⟩, hdig, hval, hh⟩ := natChars_spec m
          rw [hd, List.cons_append,
            parseVal_digit f d (ds ++ rest) (hdig d (by rw [hd]; simp)),
            show d :: (ds ++ rest) = natChars m ++ rest from by rw [hd, List.cons_append],
            parseNat_natChars m rest hr]
          rfl
        · rw [show emit (.pint (Int.negSucc m)) = intChars (Int.negSucc m) from rfl,
            intChars_negSucc, List.cons_append]
          rw [show parseVal (f + 1) ('-' :: (natChars (m + 1) ++ rest)) =
            (match parseNat (skipWs (natChars (m + 1) ++ rest)) with
             | some (n, r2) => some (.pint (-(n : Int)), r2)
             | none => none) from rfl]
          obtain ⟨⟨d, ds, hd⟩, hdig, _, _⟩ := natChars_spec (m + 1)
          obtain ⟨hw, _, _⟩ := digit_not_special d (hdig d (by rw [hd]; simp))
          rw [show natChars (m + 1) ++ rest = d :: (ds ++ rest) from
              by rw [hd, List.cons_append],
            skipWs_not_ws d _ hw,
            show d :: (ds ++ rest) = natChars (m + 1) ++ rest from
              by rw [hd, List.cons_append],
            parseNat_natChars (m + 1) rest hr]
          simp only [mentionsBoolNone, jsonify, Bool.false_eq_true, if_false]
          norm_num [Int.negSucc_eq]
      | pstr s =>
        rw [show emit (.pstr s) = '"' :: (jsonEscape s.data ++ ['"']) from rfl,
          List.cons_append, List.append_assoc, List.singleton_append]
        rw [show parseVal (f + 1) ('"' :: (jsonEscape s.data ++ '"' :: rest)) =
          (match parseStrBody '"' (jsonEscape s.data ++ '"' :: rest) with
           | some (s2, r2) => some (.pstr (String.mk s2), r2)
           | none => none) from rfl]
        rw [parseStrBody_jsonEscape s.data rest]
        simp [mentionsBoolNone, jsonify, string_mk_data]
      | plist xs =>
        rw [show emit (.plist xs) = '[' :: (emitSeq xs ++ [']']) from rfl,
          List.cons_append, List.append_assoc, List.singleton_append]
        rw [show parseVal (f + 1) ('[' :: (emitSeq xs ++ ']' :: rest)) =
          (match parseSeq ']' f (emitSeq xs ++ ']' :: rest) with
           | some (xs2, r2) => some (.plist xs2, r2)
           | none => none) from rfl]
        rw [ihS xs rest (by simp only [bnd] at hb; omega)]
        cases hm : mentionsBoolNoneList xs <;> simp [mentionsBoolNone, jsonify, hm]
      | ptuple xs =>
        rw [show emit (.ptuple xs) = '[' :: (emitSeq xs ++ [']']) from rfl,
          List.cons_append, List.append_assoc, List.singleton_append]
        rw [show parseVal (f + 1) ('[' :: (emitSeq xs ++ ']' :: rest)) =
          (match parseSeq ']' f (emitSeq xs ++ ']' :: rest) with
           | some (xs2, r2) => some (.plist xs2, r2)
           | none => none) from rfl]
        rw [ihS xs rest (by simp only [bnd] at hb; omega)]
        cases hm : mentionsBoolNoneList xs <;> simp [mentionsBoolNone, jsonify, hm]
      | pdict es =>
        rw [show emit (.pdict es) = '\x7b' :: (emitDict es ++ ['\x7d']) from rfl,
          List.cons_append, List.append_assoc, List.singleton_append]
        rw [show parseVal (f + 1) ('\x7b' :: (emitDict es ++ '\x7d' :: rest)) =
          (match parseDictBody f (emitDict es ++ '\x7d' :: rest) with
           | some (es2, r2) => some (.pdict es2, r2)
           | none => none) from rfl]
        rw [ihD es rest (by simp only [bnd] at hb; omega)]
        cases hm : mentionsBoolNoneDict es <;> simp [mentionsBoolNone, jsonify, hm]
    have partS : ∀ (xs : PyList) (rest : List Char), bndSeq xs ≤ f + 1 →
        parseSeq ']' (f + 1) (emitSeq xs ++ ']' :: rest) =
          if mentionsBoolNoneList xs then none else some (jsonifyList xs, rest) := by
      intro xs rest hb
      cases xs with
      | nil => rfl
      | cons x tl =>
        obtain ⟨c, cs0, hec, hws, hne, _⟩ := emit_head x
        have hshape : emitSeq (.cons x tl) ++ ']' :: rest =
            c :: (cs0 ++ (emitSeqPre tl ++ ']' :: rest)) := by
          rw [show emitSeq (.cons x tl) = emit x ++ emitSeqPre tl from rfl, hec]
          simp [List.cons_append, List.append_assoc]
        rw [hshape, parseSeq_step ']' f c _ hws, if_neg hne,
          show c :: (cs0 ++ (emitSeqPre tl ++ ']' :: rest)) =
            emit x ++ (emitSeqPre tl ++ ']' :: rest) from by rw [hec, List.cons_append],
          ihV x _ (by simp only [bndSeq] at hb; omega) (noDigitHead_seqPre tl rest)]
        cases hmx : mentionsBoolNone x with
        | true => simp [mentionsBoolNoneList, hmx]
        | false =>
          simp only [hmx, Bool.false_eq_true, if_false]
          rw [ihSP tl rest (by simp only [bndSeq] at hb; omega)]
          cases hmt : mentionsBoolNoneList tl with
          | true => simp [mentionsBoolNoneList, hmx, hmt]
          | false =>
            simp [mentionsBoolNoneList, hmx, hmt, jsonifyList]
    have partSP : ∀ (xs : PyList) (rest : List Char), bndSeqPre xs ≤ f + 1 →
        parseSeqRest ']' (f + 1) (emitSeqPre xs ++ ']' :: rest) =
          if mentionsBoolNoneList xs then none else some (jsonifyList xs, rest) := by
      intro xs rest hb
      cases xs with
      | nil => rfl
      | cons x tl =>
        obtain ⟨c, cs0, hec, hws, hne, _⟩ := emit_head x
        have hshape : emitSeqPre (.cons x tl) ++ ']' :: rest =
            ',' :: ' ' :: (emit x ++ (emitSeqPre tl ++ ']' :: rest)) := by
          rw [show emitSeqPre (.cons x tl) = ',' :: ' ' :: (emit x ++ emitSeqPre tl)
            from rfl]
          simp [List.cons_append, List.append_assoc]
        rw [hshape, parseSeqRest_step ']' f ',' _ (by decide), if_neg (by decide),
          if_pos rfl]
        have hskip : skipWs (' ' :: (emit x ++ (emitSeqPre tl ++ ']' :: rest))) =
            c :: (cs0 ++ (emitSeqPre tl ++ ']' :: rest)) := by
          rw [skipWs_space, hec, List.cons_append, skipWs_not_ws c _ hws]
        rw [hskip]
        simp only []
        rw [if_neg hne,
          show c :: (cs0 ++ (emitSeqPre tl ++ ']' :: rest)) =
            emit x ++ (emitSeqPre tl ++ ']' :: rest) from by rw [hec, List.cons_append],
          ihV x _ (by simp only [bndSeqPre] at hb; omega) (noDigitHead_seqPre tl rest)]
        cases hmx : mentionsBoolNone x with
        | true => simp [mentionsBoolNoneList, hmx]
        | false =>
          simp only [hmx, Bool.false_eq_true, if_false]
          rw [ihSP tl rest (by simp only [bndSeqPre] at hb; omega)]
          cases hmt : mentionsBoolNoneList tl with
          | true => simp [mentionsBoolNoneList, hmx, hmt]
          | false =>
            simp [mentionsBoolNoneList, hmx, hmt, jsonifyList]
    have partE : ∀ (k : PyKey) (v : PyVal) (rest : List Char), 1 + bnd v ≤ f + 1 →
        noDigitHead rest →
        parseEntry (f + 1) (('"' :: (jsonEscape (keyStr k).data ++ ['"'])) ++
            (':' :: ' ' :: (emit v ++ rest))) =
          if mentionsBoolNone v then none else some (jsonifyKey k, jsonify v, rest) := by
      intro k v rest hb hr
      rw [parseEntry]
      have hkey : ('"' :: (jsonEscape (keyStr k).data ++ ['"'])) ++
          (':' :: ' ' :: (emit v ++ rest)) =
          emit (.pstr (keyStr k)) ++ (':' :: ' ' :: (emit v ++ rest)) := rfl
      rw [hkey, ihV (.pstr (keyStr k)) _
        (by have := bnd_pos v; simp only [bnd]; omega)
        (by simp only [noDigitHead]; decide)]
      simp only [mentionsBoolNone, Bool.false_eq_true, if_false, jsonify, keyOfVal]
      rw [skipWs_not_ws ':' _ (by decide)]
      simp only []
      have hskip : skipWs (' ' :: (emit v ++ rest)) = emit v ++ rest := by
        obtain ⟨c, cs0, hec, hws, _, _⟩ := emit_head v
        rw [skipWs_space, hec, List.cons_append]
        exact skipWs_not_ws c _ hws
      rw [hskip, ihV v rest (by omega) hr]
      cases hmv : mentionsBoolNone v with
      | true => simp [hmv]
      | false =>
        simp only [hmv, Bool.false_eq_true, if_false]
        rw [jsonifyKey_eq]
    have partDP : ∀ (es acc : PyDict) (rest : List Char), bndDictPre es ≤ f + 1 →
        parseDictRest acc (f + 1) (emitDictPre es ++ '\x7d' :: rest) =
          if mentionsBoolNoneDict es then none else some (jsonifyDict acc es, rest) := by
      intro es acc rest hb
      cases es with
      | nil => rfl
      | cons k v tl =>
        have hshape : emitDictPre (.cons k v tl) ++ '\x7d' :: rest =
            ',' :: ' ' :: '"' :: ((jsonEscape (keyStr k).data ++ ['"']) ++
              (':' :: ' ' :: (emit v ++ (emitDictPre tl ++ '\x7d' :: rest)))) := by
          rw [show emitDictPre (.cons k v tl) = ',' :: ' ' ::
            ('"' :: (jsonEscape (keyStr k).data ++ ['"']) ++
              (':' :: ' ' :: (emit v ++ emitDictPre tl))) from rfl]
          simp [List.cons_append, List.append_assoc]
        rw [hshape, parseDictRest_step acc f ',' _ (by decide), if_neg (by decide),
          if_pos rfl]
        have hskip : skipWs (' ' :: '"' :: ((jsonEscape (keyStr k).data ++ ['"']) ++
            (':' :: ' ' :: (emit v ++ (emitDictPre tl ++ '\x7d' :: rest))))) =
            '"' :: ((jsonEscape (keyStr k).data ++ ['"']) ++
            (':' :: ' ' :: (emit v ++ (emitDictPre tl ++ '\x7d' :: rest)))) := by
          rw [skipWs_space]
          exact skipWs_not_ws '"' _ (by decide)
        rw [hskip]
        simp only []
        rw [if_neg (by decide)]
        rw [show ('"' :: ((jsonEscape (keyStr k).data ++ ['"']) ++
            (':' :: ' ' :: (emit v ++ (emitDictPre tl ++ '\x7d' :: rest))))) =
            (('"' :: (jsonEscape (keyStr k).data ++ ['"'])) ++
            (':' :: ' ' :: (emit v ++ (emitDictPre tl ++ '\x7d' :: rest)))) from rfl]
        rw [ihE k v _ (by simp only [bndDictPre] at hb; omega)
          (noDigitHead_dictPre tl rest)]
        cases hmv : mentionsBoolNone v with
        | true => simp [mentionsBoolNoneDict, hmv]
        | false =>
          simp only [hmv, Bool.false_eq_true, if_false]
          rw [ihDP tl (dictInsert acc (jsonifyKey k) (jsonify v)) rest
            (by simp only [bndDictPre] at hb; omega)]
          cases hmt : mentionsBoolNoneDict tl with
          | true => simp [mentionsBoolNoneDict, hmv, hmt]
          | false =>
            simp [mentionsBoolNoneDict, hmv, hmt, jsonifyDict]
    have partD : ∀ (es : PyDict) (rest : List Char), bndDict es ≤ f + 1 →
        parseDictBody (f + 1) (emitDict es ++ '\x7d' :: rest) =
          if mentionsBoolNoneDict es then none else some (jsonifyDict .nil es, rest) := by
      intro es rest hb
      cases es with
      | nil => rfl
      | cons k v tl =>
        have hshape : emitDict (.cons k v tl) ++ '\x7d' :: rest =
            '"' :: ((jsonEscape (keyStr k).data ++ ['"']) ++
              (':' :: ' ' :: (emit v ++ (emitDictPre tl ++ '\x7d' :: rest)))) := by
          rw [show emitDict (.cons k v tl) =
            '"' :: (jsonEscape (keyStr k).data ++ ['"']) ++
              (':' :: ' ' :: (emit v ++ emitDictPre tl)) from rfl]
          simp [List.cons_append, List.append_assoc]
        rw [hshape, parseDictBody_step f '"' _ (by decide), if_neg (by decide)]
        rw [show ('"' :: ((jsonEscape (keyStr k).data ++ ['"']) ++
            (':' :: ' ' :: (emit v ++ (emitDictPre tl ++ '\x7d' :: rest))))) =
            (('"' :: (jsonEscape (keyStr k).data ++ ['"'])) ++
            (':' :: ' ' :: (emit v ++ (emitDictPre tl ++ '\x7d' :: rest)))) from rfl]
        rw [ihE k v _ (by simp only [bndDict] at hb; omega)
          (noDigitHead_dictPre tl rest)]
        cases hmv : mentionsBoolNone v with
        | true => simp [mentionsBoolNoneDict, hmv]
        | false =>
          simp only [hmv, Bool.false_eq_true, if_false]
          rw [ihDP tl (dictInsert .nil (jsonifyKey k) (jsonify v)) rest
            (by simp only [bndDict] at hb; omega)]
          cases hmt : mentionsBoolNoneDict tl with
          | true => simp [mentionsBoolNoneDict, hmv, hmt]
          | false =>
            simp [mentionsBoolNoneDict, hmv, hmt, jsonifyDict]
    exact ⟨partV, partS, partSP, partDP, partE, partD⟩

/-- A dump is never all-whitespace. -/
theorem pyDumps_not_ws (v : PyVal) : (pyDumps v).data.all isPySpace = false := by
  obtain ⟨c, cs, hc, hws, _, _⟩ := emit_head v
  show (emit v).all isPySpace = false
  rw [hc]
  simp [List.all_cons, hws]

/-- `ast.literal_eval` of a `json.dumps` output: fails exactly when the
value mentions `None` or a boolean; otherwise yields the `jsonify` normal
form. -/
theorem literalEval_pyDumps (v : PyVal) :
    literalEval (pyDumps v) =
      if mentionsBoolNone v then none else some (jsonify v) := by
  obtain ⟨c, cs, hc, hws, _, _⟩ := emit_head v
  have hfuel : bnd v ≤ 2 * (pyDumps v).length + 4 := by
    have h1 := bnd_le v
    have h2 : (pyDumps v).length = (emit v).length := rfl
    omega
  have hskip : skipWs (pyDumps v).data = emit v := by
    show skipWs (emit v) = emit v
    rw [hc]
    exact skipWs_not_ws c _ hws
  rw [literalEval, hskip]
  have hmain := (parseRound (2 * (pyDumps v).length + 4)).1 v [] hfuel trivial
  rw [List.append_nil] at hmain
  rw [hmain]
  cases hm : mentionsBoolNone v with
  | true => rfl
  | false => simp [skipWs]

mutual

/-- Normal-form values do not mention `None` or booleans. -/
theorem jlike_no_bn : (v : PyVal) → jlike v = true → mentionsBoolNone v = false
  | .pnone => by simp [jlike]
  | .pbool b => by simp [jlike]
  | .pint n => by simp [mentionsBoolNone]
  | .pstr s => by simp [mentionsBoolNone]
  | .plist xs => by
    intro h
    simp only [jlike] at h
    simp [mentionsBoolNone, jlikeList_no_bn xs h]
  | .ptuple xs => by simp [jlike]
  | .pdict es => by
    intro h
    simp only [jlike] at h
    simp [mentionsBoolNone, jlikeDict_no_bn es h]

/-- List version of `jlike_no_bn`. -/
theorem jlikeList_no_bn : (xs : PyList) → jlikeList xs = true → mentionsBoolNoneList xs = false
  | .nil => by simp [mentionsBoolNoneList]
  | .cons x tl => by
    intro h
    simp only [jlikeList, Bool.and_eq_true] at h
    simp [mentionsBoolNoneList, jlike_no_bn x h.1, jlikeList_no_bn tl h.2]

/-- Dictionary version of `jlike_no_bn`. -/
theorem jlikeDict_no_bn : (es : PyDict) → jlikeDict es = true → mentionsBoolNoneDict es = false
  | .nil => by simp [mentionsBoolNoneDict]
  | .cons k v tl => by
    intro h
    simp only [jlikeDict, Bool.and_eq_true] at h
    simp [mentionsBoolNoneDict, jlike_no_bn v h.1.2, jlikeDict_no_bn tl h.2]

end

/-- Key membership after appending an entry. -/
theorem dictHasKey_append (k2 k : PyKey) (v : PyVal) :
    ∀ es, dictHasKey k2 (dictAppend es k v) = (dictHasKey k2 es || decide (k = k2))
  | .nil => by simp [dictHasKey, dictAppend]
  | .cons k3 v3 tl => by
    simp [dictHasKey, dictAppend, dictHasKey_append k2 k v tl, Bool.or_assoc]

/-- Replacing a value does not change key membership. -/
theorem dictHasKey_setFirst (k2 k : PyKey) (v : PyVal) :
    ∀ es, dictHasKey k2 (dictSetFirst k v es) = dictHasKey k2 es
  | .nil => rfl
  | .cons k3 v3 tl => by
    by_cases h : k3 = k
    · simp [dictSetFirst, h, dictHasKey]
    · simp [dictSetFirst, h, dictHasKey, dictHasKey_setFirst k2 k v tl]

/-- Prepending a concatenation as Python list append. -/
theorem dictConcat_append (k : PyKey) (v : PyVal) (tl : PyDict) :
    ∀ acc, dictConcat (dictAppend acc k v) tl = dictConcat acc (.cons k v tl)
  | .nil => rfl
  | .cons k2 v2 tl2 => by simp [dictAppend, dictConcat, dictConcat_append k v tl tl2]

/-- Concatenating the empty dictionary on the right is the identity. -/
theorem dictConcat_nil_right : ∀ acc, dictConcat acc .nil = acc
  | .nil => rfl
  | .cons k v tl => by simp [dictConcat, dictConcat_nil_right tl]

/-- Every dictionary is fresh for the empty accumulator. -/
theorem dictKeysFresh_nil : ∀ es, dictKeysFresh es .nil = true
  | .nil => rfl
  | .cons k v tl => by simp [dictKeysFresh, dictHasKey, dictKeysFresh_nil tl]

/-- Freshness survives appending a key that the dictionary lacks. -/
theorem dictKeysFresh_append (k : PyKey) (v : PyVal) :
    ∀ (tl acc : PyDict), dictKeysFresh tl acc = true → dictHasKey k tl = false →
      dictKeysFresh tl (dictAppend acc k v) = true
  | .nil => fun acc _ _ => rfl
  | .cons k2 v2 tl2 => by
    intro acc hfresh hnk
    simp only [dictKeysFresh, Bool.and_eq_true, Bool.not_eq_true'] at hfresh
    simp only [dictHasKey, Bool.or_eq_false_iff] at hnk
    have hk2ne : decide (k = k2) = false := by
      simp only [decide_eq_false_iff_not]
      intro he
      subst he
      simp [decide_eq_true_eq] at hnk
    simp only [dictKeysFresh, Bool.and_eq_true, Bool.not_eq_true']
    exact ⟨by rw [dictHasKey_append]; simp [hfresh.1, hk2ne],
      dictKeysFresh_append k v tl2 acc hfresh.2 hnk.2⟩

/-- Normal-form dictionary keys are strings. -/
theorem jlikeDict_key_ks (k : PyKey) (v : PyVal) (tl : PyDict)
    (h : jlikeDict (.cons k v tl) = true) : ∃ s, k = .ks s := by
  cases k with
  | ks s => exact ⟨s, rfl⟩
  | ki n => simp [jlikeDict] at h

mutual

/-- `jsonify` is the identity on normal-form values. -/
theorem jlike_jsonify : (v : PyVal) → jlike v = true → jsonify v = v
  | .pnone => by simp [jlike]
  | .pbool b => by simp [jlike]
  | .pint n => fun _ => rfl
  | .pstr s => fun _ => rfl
  | .plist xs => by
    intro h
    simp only [jlike] at h
    simp [jsonify, jlikeList_jsonify xs h]
  | .ptuple xs => by simp [jlike]
  | .pdict es => by
    intro h
    simp only [jlike] at h
    simp only [jsonify]
    rw [jlikeDict_jsonify es .nil h (dictKeysFresh_nil es)]
    rfl

/-- List version of `jlike_jsonify`. -/
theorem jlikeList_jsonify : (xs : PyList) → jlikeList xs = true → jsonifyList xs = xs
  | .nil => fun _ => rfl
  | .cons x tl => by
    intro h
    simp only [jlikeList, Bool.and_eq_true] at h
    simp [jsonifyList, jlike_jsonify x h.1, jlikeList_jsonify tl h.2]

/-- Dictionary version of `jlike_jsonify`: folding `dictInsert` over a
normal-form dictionary with fresh keys is plain concatenation. -/
theorem jlikeDict_jsonify : (es : PyDict) → ∀ acc, jlikeDict es = true →
    dictKeysFresh es acc = true → jsonifyDict acc es = dictConcat acc es
  | .nil => fun acc _ _ => (dictConcat_nil_right acc).symm
  | .cons k v tl => by
    intro acc h hf
    obtain ⟨s, hs⟩ := jlikeDict_key_ks k v tl h
    simp only [jlikeDict, Bool.and_eq_true, Bool.not_eq_true'] at h
    simp only [dictKeysFresh, Bool.and_eq_true, Bool.not_eq_true'] at hf
    subst hs
    simp only [jsonifyDict, jsonifyKey]
    rw [jlike_jsonify v h.1.2, dictInsert, if_neg (by simp [hf.1])]
    rw [jlikeDict_jsonify tl (dictAppend acc (.ks s) v) h.2
      (dictKeysFresh_append (.ks s) v tl acc hf.2 h.1.1.2)]
    exact dictConcat_append (.ks s) v tl acc

end

/-- Replacing a value preserves normal form. -/
theorem jlikeDict_setFirst (k : PyKey) (v2 : PyVal) (hv : jlike v2 = true) :
    ∀ es, jlikeDict es = true → jlikeDict (dictSetFirst k v2 es) = true
  | .nil => fun _ => rfl
  | .cons k3 v3 tl => by
    intro h
    simp only [jlikeDict, Bool.and_eq_true, Bool.not_eq_true'] at h
    by_cases he : k3 = k
    · simp only [dictSetFirst, if_pos he, jlikeDict, Bool.and_eq_true, Bool.not_eq_true']
      exact ⟨⟨⟨h.1.1.1, h.1.1.2⟩, hv⟩, h.2⟩
    · simp only [dictSetFirst, if_neg he, jlikeDict, Bool.and_eq_true, Bool.not_eq_true']
      exact ⟨⟨⟨h.1.1.1, by rw [dictHasKey_setFirst]; exact h.1.1.2⟩, h.1.2⟩,
        jlikeDict_setFirst k v2 hv tl h.2⟩

/-- Appending a fresh string-keyed entry preserves normal form. -/
theorem jlikeDict_append (s : String) (v2 : PyVal) (hv : jlike v2 = true) :
    ∀ acc, jlikeDict acc = true → dictHasKey (.ks s) acc = false →
      jlikeDict (dictAppend acc (.ks s) v2) = true
  | .nil => by
    intro _ _
    simp [dictAppend, jlikeDict, dictHasKey, hv]
  | .cons k3 v3 tl => by
    intro h hnk
    simp only [jlikeDict, Bool.and_eq_true, Bool.not_eq_true'] at h
    simp only [dictHasKey, Bool.or_eq_false_iff] at hnk
    have hne : decide ((PyKey.ks s) = k3) = false := by
      simp only [decide_eq_false_iff_not]
      intro he
      rw [← he] at hnk
      simp [decide_eq_true_eq] at hnk
    simp only [dictAppend, jlikeDict, Bool.and_eq_true, Bool.not_eq_true']
    refine ⟨⟨⟨h.1.1.1, ?_⟩, h.1.2⟩, jlikeDict_append s v2 hv tl h.2 hnk.2⟩
    rw [dictHasKey_append]
    simp [h.1.1.2, hne]

/-- Inserting a string-keyed normal-form value preserves normal form. -/
theorem jlikeDict_insert (acc : PyDict) (s : String) (v2 : PyVal)
    (hacc : jlikeDict acc = true) (hv : jlike v2 = true) :
    jlikeDict (dictInsert acc (.ks s) v2) = true := by
  rw [dictInsert]
  by_cases h : dictHasKey (.ks s) acc = true
  · rw [if_pos h]
    exact jlikeDict_setFirst _ _ hv acc hacc
  · rw [if_neg h]
    exact jlikeDict_append s v2 hv acc hacc (by simpa using h)

mutual

/-- The round-trip normal form of a `None`/boolean-free value is in
normal form. -/
theorem jsonify_jlike : (v : PyVal) → mentionsBoolNone v = false → jlike (jsonify v) = true
  | .pnone => by simp [mentionsBoolNone]
  | .pbool b => by simp [mentionsBoolNone]
  | .pint n => fun _ => rfl
  | .pstr s => fun _ => rfl
  | .plist xs => by
    intro h
    simp only [mentionsBoolNone] at h
    simp [jsonify, jlike, jsonifyList_jlike xs h]
  | .ptuple xs => by
    intro h
    simp only [mentionsBoolNone] at h
    simp [jsonify, jlike, jsonifyList_jlike xs h]
  | .pdict es => by
    intro h
    simp only [mentionsBoolNone] at h
    simp only [jsonify, jlike]
    exact jsonifyDict_jlike es .nil h rfl

/-- List version of `jsonify_jlike`. -/
theorem jsonifyList_jlike : (xs : PyList) → mentionsBoolNoneList xs = false →
    jlikeList (jsonifyList xs) = true
  | .nil => fun _ => rfl
  | .cons x tl => by
    intro h
    have hx : mentionsBoolNone x = false ∧ mentionsBoolNoneList tl = false := by
      simpa [mentionsBoolNoneList] using h
    simp [jsonifyList, jlikeList, jsonify_jlike x hx.1, jsonifyList_jlike tl hx.2]

/-- Dictionary version of `jsonify_jlike`. -/
theorem jsonifyDict_jlike : (es : PyDict) → ∀ acc, mentionsBoolNoneDict es = false →
    jlikeDict acc = true → jlikeDict (jsonifyDict acc es) = true
  | .nil => fun _ _ hacc => hacc
  | .cons k v tl => by
    intro acc h hacc
    have hparts : mentionsBoolNone v = false ∧ mentionsBoolNoneDict tl = false := by
      simpa [mentionsBoolNoneDict] using h
    simp only [jsonifyDict]
    apply jsonifyDict_jlike tl _ hparts.2
    obtain ⟨s, hs⟩ : ∃ s, jsonifyKey k = .ks s := by
      cases k <;> exact ⟨_, rfl⟩
    rw [hs]
    exact jlikeDict_insert acc s _ hacc (jsonify_jlike v hparts.1)

end

/-- A key present after stripping was present before. -/
theorem dictHasKey_strip (k : PyKey) :
    ∀ es, dictHasKey k (stripTypeKey es) = true → dictHasKey k es = true
  | .nil => fun h => h
  | .cons k2 v tl => by
    intro h
    by_cases he : k2 = PyKey.ks "$type"
    · simp only [stripTypeKey, if_pos he] at h
      simp only [dictHasKey, Bool.or_eq_true]
      exact Or.inr (dictHasKey_strip k tl h)
    · simp only [stripTypeKey, if_neg he] at h
      simp only [dictHasKey, Bool.or_eq_true] at h ⊢
      cases h with
      | inl h1 => exact Or.inl h1
      | inr h2 => exact Or.inr (dictHasKey_strip k tl h2)

/-- Stripping the `$type` key preserves normal form. -/
theorem jlikeDict_strip : ∀ es, jlikeDict es = true → jlikeDict (stripTypeKey es) = true
  | .nil => fun h => h
  | .cons k2 v tl => by
    intro h
    simp only [jlikeDict, Bool.and_eq_true, Bool.not_eq_true'] at h
    by_cases he : k2 = PyKey.ks "$type"
    · simp only [stripTypeKey, if_pos he]
      exact jlikeDict_strip tl h.2
    · simp only [stripTypeKey, if_neg he, jlikeDict, Bool.and_eq_true, Bool.not_eq_true']
      refine ⟨⟨⟨h.1.1.1, ?_⟩, h.1.2⟩, jlikeDict_strip tl h.2⟩
      cases hk : dictHasKey k2 (stripTypeKey tl) with
      | false => rfl
      | true => exact absurd (dictHasKey_strip k2 tl hk) (by simp [h.1.1.2])

/-- Stripping the `$type` key is idempotent. -/
theorem stripTypeKey_idem : ∀ es, stripTypeKey (stripTypeKey es) = stripTypeKey es
  | .nil => rfl
  | .cons k v tl => by
    by_cases he : k = PyKey.ks "$type"
    · simp [stripTypeKey, he, stripTypeKey_idem tl]
    · simp [stripTypeKey, he, stripTypeKey_idem tl]

/-- Cleaning the items of a normal-form list succeeds into a normal-form
list on which cleaning is the identity. -/
theorem clean_of_jlike : ∀ items, jlikeList items = true →
    ∀ cleaned, cleanListItems items = some cleaned →
      jlikeList cleaned = true ∧ cleanListItems cleaned = some cleaned
  | .nil => by
    intro _ cleaned hcl
    have h0 : PyList.nil = cleaned := by injection hcl
    subst h0
    exact ⟨rfl, rfl⟩
  | .cons hd tl => by
    intro hj cleaned hcl
    simp only [jlikeList, Bool.and_eq_true] at hj
    cases hd with
    | pnone => simp [cleanListItems] at hcl
    | pbool b => simp [cleanListItems] at hcl
    | pint n => simp [cleanListItems] at hcl
    | pstr s => simp [cleanListItems] at hcl
    | plist xs => simp [cleanListItems] at hcl
    | ptuple xs => simp [cleanListItems] at hcl
    | pdict es =>
      cases hct : cleanListItems tl with
      | none =>
        simp only [cleanListItems, hct] at hcl
        exact Option.noConfusion hcl
      | some tl2 =>
        simp only [cleanListItems, hct] at hcl
        have hcl2 : PyList.cons (.pdict (stripTypeKey es)) tl2 = cleaned := by
          injection hcl
        subst hcl2
        obtain ⟨ih1, ih2⟩ := clean_of_jlike tl hj.2 tl2 hct
        have hjes : jlikeDict es = true := by simpa [jlike] using hj.1
        constructor
        · simp only [jlikeList, Bool.and_eq_true]
          exact ⟨by simpa [jlike] using jlikeDict_strip es hjes, ih1⟩
        · simp only [cleanListItems, ih2, stripTypeKey_idem]

/-- Every successful non-null sanitizer output is the dump of some parsed
value. -/
theorem sanitize_ok_some (w : Option String) (x : String)
    (h : sanitize_json_field w = .ok (some x)) : ∃ u, x = pyDumps u := by
  cases w with
  | none => simp [sanitize_json_field] at h
  | some s =>
    by_cases hws : s.data.all isPySpace = true
    · simp [sanitize_json_field, hws] at h
    · simp only [sanitize_json_field] at h
      rw [if_neg hws] at h
      cases hle : literalEval s with
      | none => rw [hle] at h; simp at h
      | some v =>
        rw [hle] at h
        cases v with
        | pnone => exact ⟨.pnone, by injection h with h2; injection h2 with h3; exact h3.symm⟩
        | pbool b => exact ⟨.pbool b, by injection h with h2; injection h2 with h3; exact h3.symm⟩
        | pint n => exact ⟨.pint n, by injection h with h2; injection h2 with h3; exact h3.symm⟩
        | pstr s2 => exact ⟨.pstr s2, by injection h with h2; injection h2 with h3; exact h3.symm⟩
        | ptuple xs => exact ⟨.ptuple xs, by injection h with h2; injection h2 with h3; exact h3.symm⟩
        | pdict es => exact ⟨.pdict es, by injection h with h2; injection h2 with h3; exact h3.symm⟩
        | plist items =>
          simp only [] at h
          cases hcl : cleanListItems items with
          | none => rw [hcl] at h; simp at h
          | some cleaned =>
            rw [hcl] at h
            exact ⟨.plist cleaned, by injection h with h2; injection h2 with h3; exact h3.symm⟩

/-- **C5** (amended): on canonical sanitizer outputs on which the
sanitizer does not raise, it is idempotent.  If `x` is a successful
non-null output of `sanitize_json_field` and sanitizing `x` returns `r`
(rather than raising the uncaught `AttributeError` of a list with a
non-mapping element), then sanitizing `r` returns `r` unchanged. -/
theorem C5_amended_idempotent_when_sanitize_returns
    (w : Option String) (x : String) (r : Option String)
    (h1 : sanitize_json_field w = .ok (some x))
    (h2 : sanitize_json_field (some x) = .ok r) :
    sanitize_json_field r = .ok r := by
  obtain ⟨v, rfl⟩ := sanitize_ok_some w x h1
  have hws := pyDumps_not_ws v
  have hle := literalEval_pyDumps v
  simp only [sanitize_json_field] at h2
  rw [if_neg (by simp [hws])] at h2
  cases hbn : mentionsBoolNone v with
  | true =>
    rw [hbn] at hle
    simp at hle
    rw [hle] at h2
    have h3 : (none : Option String) = r := by injection h2
    subst h3
    rfl
  | false =>
    rw [hbn] at hle
    simp only [Bool.false_eq_true, if_false] at hle
    have hj : jlike (jsonify v) = true := jsonify_jlike v hbn
    cases hu : jsonify v with
    | pnone => rw [hu] at hj; exact absurd hj (by simp [jlike])
    | pbool b => rw [hu] at hj; exact absurd hj (by simp [jlike])
    | ptuple xs => rw [hu] at hj; exact absurd hj (by simp [jlike])
    | pint n =>
      rw [hu] at hle
      rw [hle] at h2
      have h3 : some (pyDumps (PyVal.pint n)) = r := by injection h2
      subst h3
      have hle2 : literalEval (pyDumps (PyVal.pint n)) = some (.pint n) := by
        rw [literalEval_pyDumps]
        rfl
      simp only [sanitize_json_field]
      rw [if_neg (by simp [pyDumps_not_ws (PyVal.pint n)]), hle2]
    | pstr s =>
      rw [hu] at hle
      rw [hle] at h2
      have h3 : some (pyDumps (PyVal.pstr s)) = r := by injection h2
      subst h3
      have hle2 : literalEval (pyDumps (PyVal.pstr s)) = some (.pstr s) := by
        rw [literalEval_pyDumps]
        rfl
      simp only [sanitize_json_field]
      rw [if_neg (by simp [pyDumps_not_ws (PyVal.pstr s)]), hle2]
    | pdict es =>
      have hj2 : jlike (PyVal.pdict es) = true := hu ▸ hj
      have hbn2 : mentionsBoolNone (PyVal.pdict es) = false := jlike_no_bn _ hj2
      have hid2 : jsonify (PyVal.pdict es) = PyVal.pdict es := jlike_jsonify _ hj2
      rw [hu] at hle
      rw [hle] at h2
      have h3 : some (pyDumps (PyVal.pdict es)) = r := by injection h2
      subst h3
      have hle2 : literalEval (pyDumps (PyVal.pdict es)) = some (.pdict es) := by
        rw [literalEval_pyDumps, hbn2]
        simp only [Bool.false_eq_true, if_false, hid2]
      simp only [sanitize_json_field]
      rw [if_neg (by simp [pyDumps_not_ws (PyVal.pdict es)]), hle2]
    | plist items =>
      have hj2 : jlike (PyVal.plist items) = true := hu ▸ hj
      have hjl : jlikeList items = true := by simpa [jlike] using hj2
      rw [hu] at hle
      rw [hle] at h2
      simp only [] at h2
      cases hcl : cleanListItems items with
      | none =>
        rw [hcl] at h2
        simp at h2
      | some cleaned =>
        rw [hcl] at h2
        have h3 : some (pyDumps (PyVal.plist cleaned)) = r := by injection h2
        subst h3
        obtain ⟨hclj, hcli⟩ := clean_of_jlike items hjl cleaned hcl
        have hj3 : jlike (PyVal.plist cleaned) = true := by simpa [jlike] using hclj
        have hbn3 : mentionsBoolNone (PyVal.plist cleaned) = false := jlike_no_bn _ hj3
        have hid3 : jsonify (PyVal.plist cleaned) = PyVal.plist cleaned := jlike_jsonify _ hj3
        have hle3 : literalEval (pyDumps (PyVal.plist cleaned)) = some (.plist cleaned) := by
          rw [literalEval_pyDumps, hbn3]
          simp only [Bool.false_eq_true, if_false, hid3]
        simp only [sanitize_json_field]
        rw [if_neg (by simp [pyDumps_not_ws (PyVal.plist cleaned)]), hle3]
        simp only []
        rw [hcli]

/-- Witness for C5 (amended): a concrete sanitizer output arises from the
single-quoted Python repr, a second run returns it unchanged, and a third
run is then also the identity. -/
theorem C5_amended_witness :
    sanitize_json_field (some "[\x7b\"a\": 1\x7d]") = .ok (some "[\x7b\"a\": 1\x7d]") :=
  C5_amended_idempotent_when_sanitize_returns
    (some "[\x7b'a': 1\x7d]") "[\x7b\"a\": 1\x7d]" (some "[\x7b\"a\": 1\x7d]")
    (by decide) (by decide)

end TflLoad
